import Mathlib

/-!
Verification of the SLATE time-tracking core.

This file gives a shallow embedding of the billing core of the repository:
the time-entry routes, the invoice routes (creation, line-item
mutations, the status transitions), the invoice-number generator, and the
WebSocket connection registry and event broadcaster.  Monetary values are
modelled as exact rationals; the rounding that the PostgreSQL DECIMAL(10,2)
columns of the schema apply on storage is modelled explicitly by `round2`.
Each definition is translated from the corresponding JavaScript function or
route handler; theorems then settle the specification claims against them.
-/

namespace Slate

/-- Rounding applied by PostgreSQL when a value is stored in a DECIMAL(10,2)
column (`subtotal`, `tax_rate`, `tax_amount`, `total`, `quantity`, `rate`,
`amount` in the schema): round to two decimal places, halves away from zero.
All monetary values arising in this development are nonnegative, for which
this coincides with rounding halves up. -/
def round2 (q : ℚ) : ℚ := ((⌊q * 100 + 1/2⌋ : ℤ) : ℚ) / 100

/-- `roundToTenth` from `src/utils/helpers.js`:
`Math.round(duration * 10) / 10` (durations are positive, so JavaScript's
round-half-towards-plus-infinity is round half up here). -/
def roundToTenth (q : ℚ) : ℚ := ((⌊q * 10 + 1/2⌋ : ℤ) : ℚ) / 10

/-- A row of the `clients` table (the fields the billing core reads). -/
structure ClientRec where
  id : Nat
  hourly_rate : ℚ
deriving DecidableEq, Repr

/-- A row of the `projects` table (the fields the billing core reads);
`hourly_rate` is NULL-able (NULL means: use the client rate). -/
structure ProjectRec where
  id : Nat
  client_id : Nat
  hourly_rate : Option ℚ
deriving DecidableEq, Repr

/-- A row of the `time_entries` table. -/
structure TimeEntry where
  id : Nat
  client_id : Nat
  project_id : Option Nat
  date : String
  start_time : Option String
  duration : ℚ
  title : String
  description : Option String
  internal_notes : Option String
  billable : Bool
  invoiced : Bool
  invoice_id : Option Nat
deriving DecidableEq, Repr

/-- The `status` column of the `invoices` table. -/
inductive InvStatus
  | draft
  | sent
  | paid
  | overdue
deriving DecidableEq, Repr

/-- A row of the `invoices` table. -/
structure Invoice where
  id : Nat
  client_id : Nat
  invoice_number : String
  date_issued : String
  date_due : Option String
  subtotal : ℚ
  tax_rate : ℚ
  tax_amount : ℚ
  total : ℚ
  status : InvStatus
  notes : Option String
deriving DecidableEq, Repr

/-- A row of the `invoice_items` table (manual line items). -/
structure InvoiceItem where
  id : Nat
  invoice_id : Nat
  description : String
  quantity : ℚ
  rate : ℚ
  amount : ℚ
deriving DecidableEq, Repr

/-- A row of the `resources` table (attachments to time entries). -/
structure ResourceRec where
  id : Nat
  time_entry_id : Nat
  rtype : String
  name : String
  url : String
deriving DecidableEq, Repr

/-- The database state read and written by the billing routes. -/
structure Store where
  clients : List ClientRec
  projects : List ProjectRec
  entries : List TimeEntry
  invoices : List Invoice
  items : List InvoiceItem
  resources : List ResourceRec
  nextInvoiceId : Nat
  nextItemId : Nat
  nextResourceId : Nat
deriving DecidableEq, Repr

def findClient (s : Store) (id : Nat) : Option ClientRec :=
  s.clients.find? (fun c => c.id == id)

def findProject (s : Store) (id : Nat) : Option ProjectRec :=
  s.projects.find? (fun p => p.id == id)

def findEntry (s : Store) (id : Nat) : Option TimeEntry :=
  s.entries.find? (fun e => e.id == id)

def findInvoice (s : Store) (id : Nat) : Option Invoice :=
  s.invoices.find? (fun i => i.id == id)

/-- `COALESCE(p.hourly_rate, c.hourly_rate, 0)` used by the entry and invoice
queries: project rate if the entry has a project with a non-NULL rate, else
the client rate, else zero. -/
def effectiveRate (s : Store) (e : TimeEntry) : ℚ :=
  let prate : Option ℚ :=
    match e.project_id with
    | none => none
    | some pid =>
      match findProject s pid with
      | none => none
      | some p => p.hourly_rate
  match prate with
  | some r => r
  | none =>
    match findClient s e.client_id with
    | some c => c.hourly_rate
    | none => 0

/-- The distinguishable error responses of the billing routes.  Each
constructor corresponds to one specific HTTP response in the source:
`notFound` to the 404 responses, `clientNotFound` to 400 "Client not found",
`entriesNotFound` to 400 "Some time entries not found or do not belong to
this client", `conflictAlreadyInvoiced` to 400 "Some time entries are already
invoiced" (the spec's `Conflict`), `locked` to 400 "Cannot edit/delete
invoiced time entry" (the spec's `Locked`), `invalidTransition` to the 400
responses of the send/paid routes, `notDraft` to 400 "Can only ... draft
invoices", `validationError` to the validation middleware's 400, and
`noFields` to 400 "No fields to update". -/
inductive ApiError
  | notFound
  | clientNotFound
  | entriesNotFound
  | conflictAlreadyInvoiced
  | locked
  | invalidTransition
  | notDraft
  | validationError
  | noFields
deriving DecidableEq, Repr

/-- Replace the invoice with the given id (the SQL `UPDATE invoices ...
WHERE id = $n`). -/
def updateInvoices (l : List Invoice) (id : Nat) (f : Invoice → Invoice) :
    List Invoice :=
  l.map (fun i => if i.id == id then f i else i)

/-- `POST /:id/send` from `src/routes/invoices.js`: 404 when the invoice is
absent, 400 when its status is not `draft`, otherwise set status to `sent`.
On error the store is returned unchanged. -/
def sendInvoice (s : Store) (invId : Nat) : Except ApiError Invoice × Store :=
  match findInvoice s invId with
  | none => (.error .notFound, s)
  | some inv =>
    if inv.status = .draft then
      let inv' := { inv with status := InvStatus.sent }
      (.ok inv', { s with invoices := (updateInvoices s.invoices invId
        (fun i => { i with status := InvStatus.sent })) })
    else
      (.error .invalidTransition, s)

/-- `POST /:id/paid` from `src/routes/invoices.js`: 404 when absent, 400 when
the status is `draft` ("must be sent before marking as paid") or `paid`
("already paid"), otherwise (status `sent` or `overdue`) set status to
`paid`. -/
def markPaid (s : Store) (invId : Nat) : Except ApiError Invoice × Store :=
  match findInvoice s invId with
  | none => (.error .notFound, s)
  | some inv =>
    if inv.status = .draft then (.error .invalidTransition, s)
    else if inv.status = .paid then (.error .invalidTransition, s)
    else
      let inv' := { inv with status := InvStatus.paid }
      (.ok inv', { s with invoices := (updateInvoices s.invoices invId
        (fun i => { i with status := InvStatus.paid })) })

/-- A `PUT /:id` body for a time entry; `none` models an absent key
(JavaScript `undefined`), `some none` an explicit `null`. -/
structure EntryPatch where
  project_id : Option (Option Nat) := none
  date : Option String := none
  start_time : Option (Option String) := none
  duration : Option ℚ := none
  title : Option String := none
  description : Option (Option String) := none
  internal_notes : Option (Option String) := none
  billable : Option Bool := none
deriving DecidableEq, Repr

/-- True when the patch sets no field at all (the route answers 400 "No
fields to update"). -/
def EntryPatch.isEmpty (p : EntryPatch) : Bool :=
  p.project_id.isNone && p.date.isNone && p.start_time.isNone &&
  p.duration.isNone && p.title.isNone && p.description.isNone &&
  p.internal_notes.isNone && p.billable.isNone

/-- Apply the dynamic `UPDATE time_entries SET ...` built by the route; a
supplied duration is rounded to the nearest tenth first. -/
def applyPatch (e : TimeEntry) (p : EntryPatch) : TimeEntry :=
  { e with
    project_id := p.project_id.getD e.project_id
    date := p.date.getD e.date
    start_time := p.start_time.getD e.start_time
    duration := match p.duration with
      | none => e.duration
      | some d => roundToTenth d
    title := p.title.getD e.title
    description := p.description.getD e.description
    internal_notes := p.internal_notes.getD e.internal_notes
    billable := p.billable.getD e.billable }

/-- `PUT /:id` on time entries: 404 when absent, 400 `locked` when the
entry's `invoiced` flag is set (before any other work), then the
project-ownership check, the empty-patch check, and finally the update. -/
def updateEntry (s : Store) (id : Nat) (p : EntryPatch) :
    Except ApiError TimeEntry × Store :=
  match findEntry s id with
  | none => (.error .notFound, s)
  | some e =>
    if e.invoiced then (.error .locked, s)
    else
      let projectOk : Bool :=
        match p.project_id with
        | some (some pid) =>
          (s.projects.find? (fun pr => pr.id == pid &&
            pr.client_id == e.client_id)).isSome
        | _ => true
      if !projectOk then (.error .validationError, s)
      else if p.isEmpty then (.error .noFields, s)
      else
        let e' := applyPatch e p
        (.ok e', { s with entries :=
          (s.entries.map (fun x => if x.id == id then applyPatch x p else x)) })

/-- `DELETE /:id` on time entries: 404 when absent, 400 `locked` when the
entry is invoiced, otherwise delete the row (resources cascade). -/
def deleteEntry (s : Store) (id : Nat) : Except ApiError Unit × Store :=
  match findEntry s id with
  | none => (.error .notFound, s)
  | some e =>
    if e.invoiced then (.error .locked, s)
    else
      (.ok (), { s with
        entries := (s.entries.filter (fun x => x.id != id)),
        resources := (s.resources.filter (fun r => r.time_entry_id != id)) })

/-- A `POST /:id/resources` body. -/
structure ResourceReq where
  rtype : String
  name : String
  url : String
deriving DecidableEq, Repr

/-- The `resource` schema of the validation middleware: `name`, `type` and
`url` required, `type` one of `link` or `document`. -/
def validResource (r : ResourceReq) : Bool :=
  r.name != "" && r.url != "" && (r.rtype == "link" || r.rtype == "document")

/-- `POST /:id/resources`: the validation middleware runs first, then the
route checks only that the entry exists — there is no `invoiced` guard —
and inserts the resource row. -/
def addResource (s : Store) (id : Nat) (r : ResourceReq) :
    Except ApiError ResourceRec × Store :=
  if !validResource r then (.error .validationError, s)
  else
    match findEntry s id with
    | none => (.error .notFound, s)
    | some _ =>
      let res : ResourceRec :=
        { id := s.nextResourceId, time_entry_id := id,
          rtype := r.rtype, name := r.name, url := r.url }
      let s' := { s with
        resources := (s.resources ++ [res]),
        nextResourceId := s.nextResourceId + 1 }
      (.ok res, s')

/-- `DELETE /:id/resources/:resourceId`: 404 unless a resource with that id
is attached to that entry — again no `invoiced` guard — then delete it. -/
def removeResource (s : Store) (id resourceId : Nat) :
    Except ApiError Unit × Store :=
  match s.resources.find? (fun r => r.id == resourceId &&
      r.time_entry_id == id) with
  | none => (.error .notFound, s)
  | some _ =>
    (.ok (), { s with resources :=
      (s.resources.filter (fun r => r.id != resourceId)) })

/-! Invoice numbers.  `POST /` on invoices generates the number as
`` `${year}-${(lastNum + 1).toString().padStart(4, '0')}` `` where
`lastNum` is parsed from the row returned by
`SELECT invoice_number FROM invoices WHERE invoice_number LIKE 'year-%'
ORDER BY invoice_number DESC LIMIT 1`, or `year-0001` when no row matches.
The decimal rendering of a natural number (JavaScript `toString()`), the
left zero-padding, `split('-')[1]` with `parseInt`, the SQL `LIKE` prefix
filter and the SQL descending string order are each embedded below. -/

/-- Decimal digits, least significant first, with explicit fuel (the fuel
only serves structural termination; `digitsRev` supplies enough). -/
def digitsRevAux : Nat → Nat → List Nat
  | _, 0 => []
  | 0, _ + 1 => []
  | fuel + 1, n + 1 => ((n + 1) % 10) :: digitsRevAux fuel ((n + 1) / 10)

/-- Decimal digits of a natural number, least significant first (empty for
zero). -/
def digitsRev (n : Nat) : List Nat := digitsRevAux n n

/-- The fuel is irrelevant as long as it covers the argument. -/
theorem digitsRevAux_adequate :
    ∀ fuel₁ fuel₂ n, n ≤ fuel₁ → n ≤ fuel₂ →
      digitsRevAux fuel₁ n = digitsRevAux fuel₂ n := by
  intro fuel₁
  induction fuel₁ with
  | zero =>
    intro fuel₂ n h1 _
    interval_cases n
    cases fuel₂ <;> rfl
  | succ f ih =>
    intro fuel₂ n h1 h2
    cases n with
    | zero => cases fuel₂ <;> rfl
    | succ m =>
      cases fuel₂ with
      | zero => omega
      | succ f₂ =>
        show ((m + 1) % 10) :: digitsRevAux f ((m + 1) / 10) =
          ((m + 1) % 10) :: digitsRevAux f₂ ((m + 1) / 10)
        have hd : (m + 1) / 10 ≤ f := by
          have := Nat.div_le_self (m + 1) 10
          omega
        have hd₂ : (m + 1) / 10 ≤ f₂ := by
          have := Nat.div_le_self (m + 1) 10
          omega
        rw [ih f₂ ((m + 1) / 10) hd hd₂]

/-- The unfolding rule of `digitsRev` on a positive argument. -/
theorem digitsRev_succ (n : Nat) (h : 1 ≤ n) :
    digitsRev n = n % 10 :: digitsRev (n / 10) := by
  obtain ⟨m, rfl⟩ : ∃ m, n = m + 1 := ⟨n - 1, by omega⟩
  show digitsRevAux (m + 1) (m + 1) = _
  show ((m + 1) % 10) :: digitsRevAux m ((m + 1) / 10) = _
  rw [digitsRevAux_adequate m ((m + 1) / 10) ((m + 1) / 10)
    (by have := Nat.div_le_self (m + 1) 10; omega) (le_refl _)]
  rfl

/-- JavaScript `Number.prototype.toString()` for a natural number. -/
def jsNatToString (n : Nat) : String :=
  if n = 0 then "0" else String.mk ((digitsRev n).reverse.map Nat.digitChar)

/-- JavaScript `String.prototype.padStart(4, '0')`: left-pad with zeros up
to length four; longer strings are returned unchanged (no truncation). -/
def padStart4 (s : String) : String :=
  if s.length ≥ 4 then s
  else String.mk (List.replicate (4 - s.length) '0') ++ s

/-- `` `${n}`.padStart(4, '0') `` as used for the sequence part. -/
def jsPad4 (n : Nat) : String := padStart4 (jsNatToString n)

/-- SQL `LIKE 'p%'`: the character sequence of `s` starts with that of
`p`. -/
def likeStarts (p s : String) : Bool := p.data.isPrefixOf s.data

/-- The SQL string order on invoice numbers: strict lexicographic
comparison of the character sequences (byte order; the numbers are plain
ASCII digits and dashes). -/
def listLtb : List Char → List Char → Bool
  | [], [] => false
  | [], _ :: _ => true
  | _ :: _, [] => false
  | a :: as, b :: bs =>
    if a.toNat < b.toNat then true
    else if b.toNat < a.toNat then false
    else listLtb as bs

/-- The row of `ORDER BY invoice_number DESC LIMIT 1`: the maximum of the
list under the SQL string order. -/
def maxStr : List String → Option String :=
  List.foldl (fun acc s =>
    match acc with
    | none => some s
    | some m => if listLtb m.data s.data then some s else some m) none

/-- Characters of `s.split('-')[1]` for a string containing a dash: drop
through the first `'-'`, then take until the next one. -/
def afterDash : List Char → List Char
  | [] => []
  | c :: cs => if c = '-' then cs else afterDash cs

/-- Take characters up to (excluding) the first `'-'`. -/
def upToDash : List Char → List Char
  | [] => []
  | c :: cs => if c = '-' then [] else c :: upToDash cs

/-- `parseInt(d, 10)` for an all-digit character list. -/
def parseDigits (l : List Char) : Nat :=
  l.foldl (fun acc c => acc * 10 + (c.toNat - 48)) 0

/-- `parseInt(s.split('-')[1], 10)` for the stored invoice numbers. -/
def parseSeqPart (s : String) : Nat := parseDigits (upToDash (afterDash s.data))

/-- The invoice-number generation of `POST /` on invoices (run inside
`db.withTransaction`): take the largest stored number of the current year
under the SQL string order (`LIKE 'year-%' ORDER BY invoice_number DESC
LIMIT 1`), parse its sequence part, add one and left-pad to four digits;
`year-0001` when the year has no invoice yet. -/
def genInvoiceNumber (year : Nat) (existing : List String) : String :=
  match maxStr (existing.filter (fun s =>
      likeStarts (jsNatToString year ++ "-") s)) with
  | none => jsNatToString year ++ "-" ++ "0001"
  | some last => jsNatToString year ++ "-" ++ jsPad4 (parseSeqPart last + 1)

/-- The spec's invoice-number format `^[0-9]{4}-[0-9]{4}$`: exactly four
digits, a dash, and exactly four digits. -/
def matchesFormat (s : String) : Bool :=
  match s.data with
  | [a, b, c, d, e, f, g, h, i] =>
    a.isDigit && b.isDigit && c.isDigit && d.isDigit && e == '-' &&
    f.isDigit && g.isDigit && h.isDigit && i.isDigit
  | _ => false

/-- A manual line item in a `POST /` invoice body. -/
structure ItemInput where
  description : String
  quantity : ℚ
  rate : ℚ
deriving DecidableEq, Repr

/-- A `POST /` invoice body (after the validation middleware). -/
structure InvoiceReq where
  client_id : Nat
  date_issued : String
  date_due : Option String := none
  tax_rate : ℚ := 0
  notes : Option String := none
  time_entry_ids : List Nat := []
  items : List ItemInput := []
deriving DecidableEq, Repr

/-- The validation phase of `POST /` on invoices.  It runs OUTSIDE
`db.withTransaction` (plain `db.query` calls before the transaction is
opened): the client-existence check, the check that the selected entries
all exist and belong to the client, and the check that none of them is
already invoiced. -/
def createInvoiceCheck (s : Store) (r : InvoiceReq) : Option ApiError :=
  match findClient s r.client_id with
  | none => some .clientNotFound
  | some _ =>
    if r.time_entry_ids.isEmpty then none
    else
      let rows := s.entries.filter (fun e =>
        r.time_entry_ids.contains e.id && e.client_id == r.client_id)
      if rows.length != r.time_entry_ids.length then some .entriesNotFound
      else if rows.any (fun e => e.invoiced) then some .conflictAlreadyInvoiced
      else none

/-- The transaction body of `POST /` on invoices (the callback given to
`db.withTransaction`): generate the invoice number, sum
`duration × COALESCE(project rate, client rate, 0)` over the selected
entries (by id only — the `invoiced` flag is NOT re-checked here), add the
manual items' `quantity × rate`, compute tax and total, insert the invoice,
mark the selected entries invoiced, and insert the line items.  DECIMAL
columns round their values on storage (`round2`). -/
def createInvoiceTxn (year : Nat) (s : Store) (r : InvoiceReq) :
    Store × Invoice :=
  let num := genInvoiceNumber year (s.invoices.map (fun i => i.invoice_number))
  let entrySub := (s.entries.filter
      (fun e => r.time_entry_ids.contains e.id)).foldl
    (fun acc e => acc + e.duration * effectiveRate s e) 0
  let subtotal := r.items.foldl (fun acc it => acc + it.quantity * it.rate)
    entrySub
  let taxAmount := subtotal * (r.tax_rate / 100)
  let total := subtotal + taxAmount
  let inv : Invoice :=
    { id := s.nextInvoiceId, client_id := r.client_id, invoice_number := num,
      date_issued := r.date_issued, date_due := r.date_due,
      subtotal := round2 subtotal, tax_rate := round2 r.tax_rate,
      tax_amount := round2 taxAmount, total := round2 total,
      status := .draft, notes := r.notes }
  let entries' := s.entries.map (fun e =>
    if r.time_entry_ids.contains e.id then
      { e with invoiced := true, invoice_id := some inv.id }
    else e)
  let newItems := (List.range r.items.length).zip r.items |>.map (fun p =>
    { id := s.nextItemId + p.1, invoice_id := inv.id,
      description := p.2.description, quantity := round2 p.2.quantity,
      rate := round2 p.2.rate,
      amount := round2 (p.2.quantity * p.2.rate) : InvoiceItem })
  let s' := { s with
    invoices := (s.invoices ++ [inv]),
    entries := entries',
    items := (s.items ++ newItems),
    nextInvoiceId := s.nextInvoiceId + 1,
    nextItemId := s.nextItemId + r.items.length }
  (s', inv)

/-- `POST /` on invoices, one caller alone: the validation phase followed by
the transaction body. -/
def createInvoice (year : Nat) (s : Store) (r : InvoiceReq) :
    Except ApiError Invoice × Store :=
  match createInvoiceCheck s r with
  | some e => (.error e, s)
  | none =>
    let p := createInvoiceTxn year s r
    (.ok p.2, p.1)

/-- Two concurrent `POST /` invocations in the interleaving the source
admits: because the entry validation runs outside `db.withTransaction` and
the transaction body takes no row locks and never re-reads the `invoiced`
flag, both callers' validation reads can execute against the initial store
before either transaction body runs; the two transaction bodies then commit
one after the other. -/
def createInvoiceRace (year : Nat) (s : Store) (r1 r2 : InvoiceReq) :
    Except ApiError Invoice × Except ApiError Invoice × Store :=
  match createInvoiceCheck s r1, createInvoiceCheck s r2 with
  | some e1, some e2 => (.error e1, .error e2, s)
  | some e1, none =>
    let p := createInvoiceTxn year s r2
    (.error e1, .ok p.2, p.1)
  | none, some e2 =>
    let p := createInvoiceTxn year s r1
    (.ok p.2, .error e2, p.1)
  | none, none =>
    let p1 := createInvoiceTxn year s r1
    let p2 := createInvoiceTxn year p1.1 r2
    (.ok p1.2, .ok p2.2, p2.1)

/-- A `POST /:id/items` body. -/
structure LineItemReq where
  description : String
  quantity : ℚ
  rate : ℚ
deriving DecidableEq, Repr

/-- `POST /:id/items`: 404 when the invoice is absent, 400 unless it is a
draft, 400 when a field is missing (JavaScript falsiness: an empty
description, a zero quantity or a zero rate all fail `!description ||
!quantity || !rate`).  Then the item is inserted and the totals are
updated: the new subtotal is the PREVIOUSLY STORED subtotal plus the new
item's amount, and tax and total are recomputed from it. -/
def addLineItem (s : Store) (invId : Nat) (r : LineItemReq) :
    Except ApiError InvoiceItem × Store :=
  match findInvoice s invId with
  | none => (.error .notFound, s)
  | some inv =>
    if inv.status != .draft then (.error .notDraft, s)
    else if r.description == "" || r.quantity == 0 || r.rate == 0 then
      (.error .validationError, s)
    else
      let amount := r.quantity * r.rate
      let item : InvoiceItem :=
        { id := s.nextItemId, invoice_id := invId,
          description := r.description, quantity := round2 r.quantity,
          rate := round2 r.rate, amount := round2 amount }
      let newSubtotal := inv.subtotal + amount
      let taxAmount := newSubtotal * (inv.tax_rate / 100)
      let total := newSubtotal + taxAmount
      let s' := { s with
        items := (s.items ++ [item]),
        invoices := (updateInvoices s.invoices invId (fun i =>
          { i with
            subtotal := round2 newSubtotal,
            tax_amount := round2 taxAmount, total := round2 total })),
        nextItemId := s.nextItemId + 1 }
      (.ok item, s')

/-- `DELETE /:id/items/:itemId`: 404 when the invoice or the item is absent,
400 unless the invoice is a draft.  Then the item is deleted and the totals
are updated: the new subtotal is the PREVIOUSLY STORED subtotal minus the
STORED amount of the removed item, and tax and total are recomputed from
it. -/
def removeLineItem (s : Store) (invId itemId : Nat) :
    Except ApiError Unit × Store :=
  match findInvoice s invId with
  | none => (.error .notFound, s)
  | some inv =>
    if inv.status != .draft then (.error .notDraft, s)
    else
      match s.items.find? (fun it => it.id == itemId &&
          it.invoice_id == invId) with
      | none => (.error .notFound, s)
      | some item =>
        let newSubtotal := inv.subtotal - item.amount
        let taxAmount := newSubtotal * (inv.tax_rate / 100)
        let total := newSubtotal + taxAmount
        let s' := { s with
          items := (s.items.filter (fun it => it.id != itemId)),
          invoices := (updateInvoices s.invoices invId (fun i =>
            { i with
              subtotal := round2 newSubtotal,
              tax_amount := round2 taxAmount, total := round2 total })) }
        (.ok (), s')

/-- The specification's from-scratch subtotal of an invoice: the sum of
`duration × effective rate` over the time entries currently attached to it
plus the sum of `quantity × rate` over its current manual items (spec
§4.2: "each mutation recomputes subtotal ... from the invoice's current
entries + items"). -/
def specSubtotalFromScratch (s : Store) (invId : Nat) : ℚ :=
  ((s.entries.filter (fun e => e.invoice_id == some invId)).foldl
    (fun acc e => acc + e.duration * effectiveRate s e) 0) +
  ((s.items.filter (fun it => it.invoice_id == invId)).foldl
    (fun acc it => acc + it.quantity * it.rate) 0)

/-! The WebSocket handler (`src/websocket/handler.js`): the connection
registry (`clients` and `clientSubscriptions` maps), the broadcast
primitives and the semantic events.  JavaScript objects sent over the wire
pass through `JSON.stringify`, which drops keys whose value is `undefined`;
an object is therefore modelled as a list of key/value pairs where the
value `none` stands for `undefined`, and serialization keeps the `some`
entries. -/

/-- A JSON value as delivered in an event payload. -/
inductive JVal
  | s (v : String)
  | q (v : ℚ)
  | i (v : Nat)
  | b (v : Bool)
  | null
deriving DecidableEq, Repr

/-- A JavaScript object: ordered keys, `none` = `undefined`. -/
abbrev JsObj := List (String × Option JVal)

/-- `JSON.stringify` on an object: keys with value `undefined` are
omitted entirely. -/
def jsonSerialize (o : JsObj) : List (String × JVal) :=
  o.filterMap (fun kv => kv.2.map (fun v => (kv.1, v)))

/-- An event envelope `{ type, data }` after serialization. -/
structure Msg where
  type : String
  data : List (String × JVal)
deriving DecidableEq, Repr

/-- The `user` / `client` session kinds (`user_type`). -/
inductive UserType
  | user
  | client
deriving DecidableEq, Repr

/-- A live WebSocket connection: identity stored on the socket at connect
time plus its `readyState === WebSocket.OPEN` flag. -/
structure Conn where
  id : Nat
  userType : UserType
  userId : Nat
  clientId : Nat
  isOpenConn : Bool
deriving DecidableEq, Repr

/-- The principal key of a connection: `user:<id>` or `client:<id>`. -/
def connKey (c : Conn) : String :=
  match c.userType with
  | .user => "user:" ++ jsNatToString c.userId
  | .client => "client:" ++ jsNatToString c.clientId

/-- The two registry maps: `clients` (principal key → set of connections)
and `clientSubscriptions` (client id → set of connections).  JavaScript
`Map`/`Set` are modelled as association lists of duplicate-free member
lists. -/
structure Registry where
  principal : List (String × List Nat)
  subs : List (Nat × List Nat)
deriving DecidableEq, Repr

def Registry.empty : Registry := ⟨[], []⟩

/-- `Set.add`: append if not yet a member. -/
def setAdd (l : List Nat) (x : Nat) : List Nat :=
  if l.contains x then l else l ++ [x]

/-- Add `x` to the set at key `k`, creating the entry when absent (the
`if (!m.has(k)) m.set(k, new Set()); m.get(k).add(x)` idiom). -/
def assocAdd [BEq κ] (m : List (κ × List Nat)) (k : κ) (x : Nat) :
    List (κ × List Nat) :=
  if (m.find? (fun p => p.1 == k)).isSome then
    m.map (fun p => if p.1 == k then (p.1, setAdd p.2 x) else p)
  else m ++ [(k, [x])]

/-- Members of the set at key `k` (empty when the key is absent). -/
def assocGet [BEq κ] (m : List (κ × List Nat)) (k : κ) : List Nat :=
  match m.find? (fun p => p.1 == k) with
  | none => []
  | some p => p.2

/-- Remove `x` from the set at key `k`, deleting the entry when its set
becomes empty (the close handler's `set.delete(ws); if (set.size === 0)
m.delete(k)` idiom). -/
def assocRemove [BEq κ] (m : List (κ × List Nat)) (k : κ) (x : Nat) :
    List (κ × List Nat) :=
  m.filterMap (fun p =>
    if p.1 == k then
      let rest := p.2.filter (fun y => y != x)
      if rest.isEmpty then none else some (p.1, rest)
    else some p)

/-- Remove `x` from the set at key `k` without deleting an emptied entry
(the `unsubscribe:client` handler only calls `subs.delete(ws)`). -/
def assocRemoveKeep [BEq κ] (m : List (κ × List Nat)) (k : κ) (x : Nat) :
    List (κ × List Nat) :=
  m.map (fun p =>
    if p.1 == k then (p.1, p.2.filter (fun y => y != x)) else p)

/-- The connect handler: the connection is put under its principal key, and
a client-type connection is additionally subscribed to its own client id. -/
def handleConnect (reg : Registry) (c : Conn) : Registry :=
  let reg1 := { reg with principal := assocAdd reg.principal (connKey c) c.id }
  match c.userType with
  | .client => { reg1 with subs := assocAdd reg1.subs c.clientId c.id }
  | .user => reg1

/-- The `subscribe:client` message handler: only a user-type connection is
added to the subscription set of the requested client id. -/
def handleSubscribeClient (reg : Registry) (c : Conn) (clientId : Nat) :
    Registry :=
  match c.userType with
  | .user => { reg with subs := assocAdd reg.subs clientId c.id }
  | .client => reg

/-- The `unsubscribe:client` message handler. -/
def handleUnsubscribeClient (reg : Registry) (c : Conn) (clientId : Nat) :
    Registry :=
  match c.userType with
  | .user => { reg with subs := assocRemoveKeep reg.subs clientId c.id }
  | .client => reg

/-- The `ws.on('close')` handler: the connection is removed from the set
under its principal key (the entry is deleted when emptied), and — ONLY
when its `userType` is `client` — from the subscription set of its client
id.  A user-type connection is not removed from any subscription set it
joined via `subscribe:client`. -/
def handleClose (reg : Registry) (c : Conn) : Registry :=
  let reg1 := { reg with
    principal := assocRemove reg.principal (connKey c) c.id }
  match c.userType with
  | .client => { reg1 with subs := assocRemove reg1.subs c.clientId c.id }
  | .user => reg1

/-- Look a connection object up by id in the list of live sockets. -/
def connById (conns : List Conn) (id : Nat) : Option Conn :=
  conns.find? (fun c => c.id == id)

/-- `ws.readyState === WebSocket.OPEN` for the socket with this id. -/
def isOpenId (conns : List Conn) (id : Nat) : Bool :=
  match connById conns id with
  | none => false
  | some c => c.isOpenConn

/-- `broadcastToAllUsers`: every open connection under a principal key
starting with `user:` receives the message. -/
def broadcastToAllUsers (conns : List Conn) (reg : Registry) (m : Msg) :
    List (Nat × Msg) :=
  (reg.principal.filter (fun p => likeStarts "user:" p.1)).flatMap
    (fun p => p.2.filterMap (fun cid =>
      if isOpenId conns cid then some (cid, m) else none))

/-- `broadcastToClient`: every open connection in the subscription set of
the client id receives the message. -/
def broadcastToClient (conns : List Conn) (reg : Registry) (clientId : Nat)
    (m : Msg) : List (Nat × Msg) :=
  (assocGet reg.subs clientId).filterMap (fun cid =>
    if isOpenId conns cid then some (cid, m) else none)

/-- The entry row as a JavaScript object (the fields of `te.*` the claims
are about; `none` field values of the row become JSON `null`). -/
def entryObj (e : TimeEntry) : JsObj :=
  [("id", some (JVal.i e.id)),
   ("client_id", some (JVal.i e.client_id)),
   ("project_id", some (match e.project_id with
     | none => JVal.null | some p => JVal.i p)),
   ("date", some (JVal.s e.date)),
   ("start_time", some (match e.start_time with
     | none => JVal.null | some t => JVal.s t)),
   ("duration", some (JVal.q e.duration)),
   ("title", some (JVal.s e.title)),
   ("description", some (match e.description with
     | none => JVal.null | some d => JVal.s d)),
   ("internal_notes", some (match e.internal_notes with
     | none => JVal.null | some v => JVal.s v)),
   ("billable", some (JVal.b e.billable)),
   ("invoiced", some (JVal.b e.invoiced)),
   ("invoice_id", some (match e.invoice_id with
     | none => JVal.null | some v => JVal.i v))]

/-- `{ ...entry, internal_notes: undefined }`: the spread copies every key,
then the `internal_notes` key is overwritten with `undefined` (it stays in
the object but `JSON.stringify` will drop it). -/
def redactedEntryObj (e : TimeEntry) : JsObj :=
  (entryObj e).map (fun kv =>
    if kv.1 == "internal_notes" then (kv.1, none) else kv)

/-- The serialized payload staff connections receive for an entry event. -/
def staffEntryData (e : TimeEntry) : List (String × JVal) :=
  jsonSerialize (entryObj e)

/-- The serialized payload client-scoped subscribers receive for an entry
event. -/
def clientEntryData (e : TimeEntry) : List (String × JVal) :=
  jsonSerialize (redactedEntryObj e)

/-- The invoice row as a serialized event payload. -/
def invoiceData (v : Invoice) : List (String × JVal) :=
  [("id", JVal.i v.id),
   ("client_id", JVal.i v.client_id),
   ("invoice_number", JVal.s v.invoice_number),
   ("subtotal", JVal.q v.subtotal),
   ("tax_rate", JVal.q v.tax_rate),
   ("tax_amount", JVal.q v.tax_amount),
   ("total", JVal.q v.total),
   ("status", JVal.s (match v.status with
     | .draft => "draft" | .sent => "sent"
     | .paid => "paid" | .overdue => "overdue"))]

/-- `events.timeEntryCreated(entry, clientId)`: the full record to all
user connections, then the redacted copy to the client's subscribers. -/
def timeEntryCreatedDeliveries (conns : List Conn) (reg : Registry)
    (e : TimeEntry) (clientId : Nat) : List (Nat × Msg) :=
  broadcastToAllUsers conns reg ⟨"time_entry:created", staffEntryData e⟩ ++
  broadcastToClient conns reg clientId ⟨"time_entry:created", clientEntryData e⟩

/-- `events.timeEntryUpdated(entry, clientId)`. -/
def timeEntryUpdatedDeliveries (conns : List Conn) (reg : Registry)
    (e : TimeEntry) (clientId : Nat) : List (Nat × Msg) :=
  broadcastToAllUsers conns reg ⟨"time_entry:updated", staffEntryData e⟩ ++
  broadcastToClient conns reg clientId ⟨"time_entry:updated", clientEntryData e⟩

/-- `events.timeEntryDeleted(entryId, clientId)`: both classes receive only
the id. -/
def timeEntryDeletedDeliveries (conns : List Conn) (reg : Registry)
    (entryId : Nat) (clientId : Nat) : List (Nat × Msg) :=
  broadcastToAllUsers conns reg ⟨"time_entry:deleted", [("id", JVal.i entryId)]⟩ ++
  broadcastToClient conns reg clientId
    ⟨"time_entry:deleted", [("id", JVal.i entryId)]⟩

/-- `events.invoiceCreated(invoice)`: ONLY `broadcastToAllUsers` — no
second step towards the owning client's subscribers. -/
def invoiceCreatedDeliveries (conns : List Conn) (reg : Registry)
    (v : Invoice) : List (Nat × Msg) :=
  broadcastToAllUsers conns reg ⟨"invoice:created", invoiceData v⟩

/-- `events.invoiceUpdated(invoice)`: the full record to all user
connections; only when the status is `sent`, a narrow `invoice:sent`
notice (id and number) to the owning client's subscribers. -/
def invoiceUpdatedDeliveries (conns : List Conn) (reg : Registry)
    (v : Invoice) : List (Nat × Msg) :=
  broadcastToAllUsers conns reg ⟨"invoice:updated", invoiceData v⟩ ++
  (if v.status = .sent then
    broadcastToClient conns reg v.client_id
      ⟨"invoice:sent",
       [("id", JVal.i v.id), ("invoice_number", JVal.s v.invoice_number)]⟩
  else [])

/-! Helper lemmas. -/

/-- Success of a route result. -/
def exOk {α : Type} : Except ApiError α → Bool
  | .ok _ => true
  | .error _ => false

/-- `find?` commutes with a map that preserves the predicate. -/
theorem findMapPres {α : Type} (g : α → α) (p : α → Bool)
    (hp : ∀ a, p (g a) = p a) :
    ∀ l : List α, (l.map g).find? p = (l.find? p).map g := by
  intro l
  induction l with
  | nil => rfl
  | cons a t ih =>
    by_cases h : p a = true
    · rw [List.map_cons, List.find?_cons_of_pos _ (by rw [hp]; exact h),
        List.find?_cons_of_pos _ h]
      rfl
    · rw [List.map_cons, List.find?_cons_of_neg, List.find?_cons_of_neg _ (by
        simpa using h), ih]
      rw [hp]; simpa using h

/-- An invoice found by id has that id. -/
theorem findInvoice_id {s : Store} {id : Nat} {inv : Invoice}
    (h : findInvoice s id = some inv) : inv.id = id := by
  have := List.find?_some h
  simpa using this

/-- Looking an invoice up after `updateInvoices` on the same id yields the
updated record. -/
theorem findInvoice_update (s : Store) (id : Nat) (inv : Invoice)
    (f : Invoice → Invoice) (hf : ∀ i, (f i).id = i.id)
    (h : findInvoice s id = some inv) :
    (updateInvoices s.invoices id f).find? (fun i => i.id == id) =
      some (f inv) := by
  have hp : ∀ a : Invoice,
      (((if a.id == id then f a else a).id == id)) = (a.id == id) := by
    intro a
    by_cases ha : a.id = id
    · simp [ha, hf]
    · simp [ha]
  unfold updateInvoices
  rw [findMapPres _ _ hp]
  have h' : List.find? (fun i => i.id == id) s.invoices = some inv := h
  rw [h']
  have : inv.id = id := findInvoice_id h
  simp [this]

/-- One step of the invoice lifecycle: a send or a mark-paid request
against some invoice id. -/
inductive InvOp
  | send (id : Nat)
  | pay (id : Nat)
deriving DecidableEq, Repr

def applyOp (s : Store) : InvOp → Store
  | .send id => (sendInvoice s id).2
  | .pay id => (markPaid s id).2

def applyOps (s : Store) : List InvOp → Store
  | [] => s
  | op :: rest => applyOps (applyOp s op) rest

/-- Position of a status along `draft → sent → paid`; `overdue` sits with
`sent` (it is a legal prior state of `paid`). -/
def statusRank : InvStatus → Nat
  | .draft => 0
  | .sent => 1
  | .overdue => 1
  | .paid => 2

/-- Looking up any invoice after a status write on invoice `tid` yields the
original record with the status map applied when the ids coincide. -/
theorem findInvoice_statusWrite (s : Store) (tid id : Nat) (inv : Invoice)
    (st : InvStatus) (h : findInvoice s id = some inv) :
    findInvoice { s with invoices := (updateInvoices s.invoices tid
        (fun i => { i with status := st })) } id =
      some (if inv.id == tid then { inv with status := st } else inv) := by
  show (updateInvoices s.invoices tid _).find? _ = _
  unfold updateInvoices
  rw [findMapPres (fun i => if i.id == tid then { i with status := st } else i)
    (fun i => i.id == id) (by
      intro a
      by_cases ha : a.id = tid <;> simp [ha]) s.invoices]
  have h' : List.find? (fun i => i.id == id) s.invoices = some inv := h
  rw [h']
  rfl

/-- A single lifecycle step never lowers the rank of any invoice's
status. -/
theorem stepRank (s : Store) (op : InvOp) (id : Nat) (inv : Invoice)
    (h : findInvoice s id = some inv) :
    ∃ inv', findInvoice (applyOp s op) id = some inv' ∧
      statusRank inv.status ≤ statusRank inv'.status := by
  cases op with
  | send tid =>
    cases htid : findInvoice s tid with
    | none =>
      refine ⟨inv, ?_, le_refl _⟩
      simp [applyOp, sendInvoice, htid, h]
    | some j =>
      by_cases hst : j.status = InvStatus.draft
      · have hsnd : (sendInvoice s tid).2 = { s with invoices :=
            (updateInvoices s.invoices tid
              (fun i => { i with status := InvStatus.sent })) } := by
          simp [sendInvoice, htid, hst]
        refine ⟨(if inv.id == tid then { inv with status := InvStatus.sent }
          else inv), ?_, ?_⟩
        · show findInvoice (sendInvoice s tid).2 id = _
          rw [hsnd]
          exact findInvoice_statusWrite s tid id inv InvStatus.sent h
        · by_cases hit : inv.id = tid
          · have hj : inv = j := by
              have hinv : findInvoice s tid = some inv := by
                have hid : inv.id = id := findInvoice_id h
                rw [← hit, hid]
                exact h
              rw [hinv] at htid
              exact Option.some.inj htid
            simp [hit, hj, hst, statusRank]
          · simp [hit]
      · refine ⟨inv, ?_, le_refl _⟩
        show findInvoice (sendInvoice s tid).2 id = some inv
        simp [sendInvoice, htid, hst, h]
  | pay tid =>
    cases htid : findInvoice s tid with
    | none =>
      refine ⟨inv, ?_, le_refl _⟩
      simp [applyOp, markPaid, htid, h]
    | some j =>
      by_cases hd : j.status = InvStatus.draft
      · refine ⟨inv, ?_, le_refl _⟩
        show findInvoice (markPaid s tid).2 id = some inv
        simp [markPaid, htid, hd, h]
      · by_cases hp : j.status = InvStatus.paid
        · refine ⟨inv, ?_, le_refl _⟩
          show findInvoice (markPaid s tid).2 id = some inv
          simp [markPaid, htid, hd, hp, h]
        · have hsnd : (markPaid s tid).2 = { s with invoices :=
              (updateInvoices s.invoices tid
                (fun i => { i with status := InvStatus.paid })) } := by
            simp [markPaid, htid, hd, hp]
          refine ⟨(if inv.id == tid then { inv with status := InvStatus.paid }
            else inv), ?_, ?_⟩
          · show findInvoice (markPaid s tid).2 id = _
            rw [hsnd]
            exact findInvoice_statusWrite s tid id inv InvStatus.paid h
          · by_cases hit : inv.id = tid
            · simp only [hit, beq_self_eq_true, if_true]
              cases his : inv.status <;> simp [statusRank]
            · simp [hit]

/-- Along any sequence of send/mark-paid requests the rank never
decreases. -/
theorem opsRank (ops : List InvOp) (s : Store) (id : Nat) (inv : Invoice)
    (h : findInvoice s id = some inv) :
    ∀ inv', findInvoice (applyOps s ops) id = some inv' →
      statusRank inv.status ≤ statusRank inv'.status := by
  induction ops generalizing s inv with
  | nil =>
    intro inv' h'
    rw [show applyOps s [] = s from rfl] at h'
    rw [h] at h'
    cases h'
    exact le_refl _
  | cons op rest ih =>
    intro inv' h'
    obtain ⟨inv1, h1, hr1⟩ := stepRank s op id inv h
    have := ih (applyOp s op) inv1 h1 inv' (by exact h')
    exact le_trans hr1 this

/-! Claim theorems. -/

/-- C7: for every invoice, `send` succeeds exactly when the status is
`draft` (setting it to `sent`) and fails with `InvalidTransition`
otherwise; `markPaid` succeeds exactly when the status is `sent` or
`overdue` (setting it to `paid`) and fails with `InvalidTransition` on
`draft` or `paid`; consequently along any sequence of these operations the
status only moves forward along `draft → sent → paid`, never backward. -/
theorem c7_invoice_state_machine (s : Store) (id : Nat) (inv : Invoice)
    (h : findInvoice s id = some inv) :
    (exOk (sendInvoice s id).1 = true ↔ inv.status = InvStatus.draft) ∧
    (inv.status ≠ InvStatus.draft →
      sendInvoice s id = (.error .invalidTransition, s)) ∧
    (inv.status = InvStatus.draft →
      findInvoice (sendInvoice s id).2 id =
        some { inv with status := InvStatus.sent }) ∧
    (exOk (markPaid s id).1 = true ↔
      (inv.status = InvStatus.sent ∨ inv.status = InvStatus.overdue)) ∧
    ((inv.status = InvStatus.draft ∨ inv.status = InvStatus.paid) →
      markPaid s id = (.error .invalidTransition, s)) ∧
    ((inv.status = InvStatus.sent ∨ inv.status = InvStatus.overdue) →
      findInvoice (markPaid s id).2 id =
        some { inv with status := InvStatus.paid }) ∧
    (∀ (ops : List InvOp) (inv' : Invoice),
      findInvoice (applyOps s ops) id = some inv' →
      statusRank inv.status ≤ statusRank inv'.status) := by
  refine ⟨?_, ?_, ?_, ?_, ?_, ?_, fun ops inv' h' => opsRank ops s id inv h inv' h'⟩
  · cases hs : inv.status <;> simp [sendInvoice, h, hs, exOk]
  · intro hne
    cases hs : inv.status
    · exact absurd hs hne
    all_goals simp [sendInvoice, h, hs]
  · intro hd
    have hsnd : (sendInvoice s id).2 = { s with invoices :=
        (updateInvoices s.invoices id
          (fun i => { i with status := InvStatus.sent })) } := by
      simp [sendInvoice, h, hd]
    rw [hsnd]
    have := findInvoice_statusWrite s id id inv InvStatus.sent h
    simpa [findInvoice_id h] using this
  · cases hs : inv.status <;> simp [markPaid, h, hs, exOk]
  · intro hdp
    cases hdp with
    | inl hd => simp [markPaid, h, hd]
    | inr hp => simp [markPaid, h, hp]
  · intro hso
    have hsnd : (markPaid s id).2 = { s with invoices :=
        (updateInvoices s.invoices id
          (fun i => { i with status := InvStatus.paid })) } := by
      cases hso with
      | inl hs => simp [markPaid, h, hs]
      | inr ho => simp [markPaid, h, ho]
    rw [hsnd]
    have := findInvoice_statusWrite s id id inv InvStatus.paid h
    simpa [findInvoice_id h] using this

/-- A store holding one draft invoice, to instantiate C7. -/
def c7inv : Invoice :=
  { id := 1, client_id := 1, invoice_number := "2025-0001",
    date_issued := "2025-01-02", date_due := none, subtotal := 100,
    tax_rate := 0, tax_amount := 0, total := 100, status := InvStatus.draft,
    notes := none }

def c7store : Store :=
  { clients := [{ id := 1, hourly_rate := 50 }], projects := [],
    entries := [], invoices := [c7inv], items := [], resources := [],
    nextInvoiceId := 2, nextItemId := 1, nextResourceId := 1 }

/-- Witness for C7 at a concrete store: sending the draft invoice succeeds
and marking it paid while still a draft is rejected. -/
theorem c7_invoice_state_machine_witness :
    exOk (sendInvoice c7store 1).1 = true ∧
    markPaid c7store 1 = (.error .invalidTransition, c7store) :=
  ⟨(c7_invoice_state_machine c7store 1 c7inv (by rfl)).1.mpr (by rfl),
   (c7_invoice_state_machine c7store 1 c7inv (by rfl)).2.2.2.2.1
     (Or.inl (by rfl))⟩

/-- C8: update and delete on an invoiced entry fail with the `Locked`
condition and leave the whole store unchanged; on a non-invoiced entry
neither operation is rejected on this ground. -/
theorem c8_invoiced_entries_locked (s : Store) (id : Nat) (e : TimeEntry)
    (p : EntryPatch) (h : findEntry s id = some e) :
    (e.invoiced = true →
      updateEntry s id p = (.error .locked, s) ∧
      deleteEntry s id = (.error .locked, s)) ∧
    (e.invoiced = false →
      (updateEntry s id p).1 ≠ .error .locked ∧
      (deleteEntry s id).1 ≠ .error .locked) := by
  constructor
  · intro hi
    constructor
    · simp [updateEntry, h, hi]
    · simp [deleteEntry, h, hi]
  · intro hi
    constructor
    · simp only [updateEntry, h, hi]
      split
      · simp_all
      · split
        · simp
        · split
          · simp
          · simp
    · simp only [deleteEntry, h, hi]
      split
      · simp_all
      · simp

/-- A store holding one invoiced and one unbilled entry, to instantiate
C8 and C10. -/
def c8entry : TimeEntry :=
  { id := 1, client_id := 1, project_id := none, date := "2025-01-01",
    start_time := none, duration := 2, title := "Work",
    description := none, internal_notes := some "margin is thin",
    billable := true, invoiced := true, invoice_id := some 1 }

def c8entryFree : TimeEntry :=
  { c8entry with id := 2, invoiced := false, invoice_id := none }

def c8res : ResourceRec :=
  { id := 1, time_entry_id := 1, rtype := "link", name := "repo",
    url := "https://example.com" }

def c8store : Store :=
  { clients := [{ id := 1, hourly_rate := 50 }], projects := [],
    entries := [c8entry, c8entryFree],
    invoices := [c7inv], items := [],
    resources := [c8res],
    nextInvoiceId := 2, nextItemId := 1, nextResourceId := 2 }

/-- Witness for C8 at a concrete store: both mutations of the invoiced
entry are rejected as locked with the store untouched, and neither
mutation of the unbilled entry is rejected on that ground. -/
theorem c8_invoiced_entries_locked_witness :
    (updateEntry c8store 1 {} = (.error .locked, c8store) ∧
      deleteEntry c8store 1 = (.error .locked, c8store)) ∧
    ((updateEntry c8store 2 {}).1 ≠ .error .locked ∧
      (deleteEntry c8store 2).1 ≠ .error .locked) :=
  ⟨(c8_invoiced_entries_locked c8store 1 c8entry {} (by rfl)).1 (by rfl),
   (c8_invoiced_entries_locked c8store 2 c8entryFree {} (by rfl)).2 (by rfl)⟩

/-- C10: attaching and detaching resources is not blocked by the invoice
lock: for any existing entry — whatever its `invoiced` flag — a valid
`addResource` succeeds, and `removeResource` of an attached resource
succeeds; neither ever reports the `Locked` condition. -/
theorem c10_resources_ignore_lock (s : Store) (id : Nat) (e : TimeEntry)
    (r : ResourceReq) (rid : Nat) (res : ResourceRec)
    (he : findEntry s id = some e) (hr : validResource r = true)
    (hres : s.resources.find?
      (fun x => x.id == rid && x.time_entry_id == id) = some res) :
    exOk (addResource s id r).1 = true ∧
    (addResource s id r).1 ≠ .error .locked ∧
    exOk (removeResource s id rid).1 = true ∧
    (removeResource s id rid).1 ≠ .error .locked := by
  refine ⟨?_, ?_, ?_, ?_⟩
  · simp [addResource, hr, he, exOk]
  · simp [addResource, hr, he]
  · simp [removeResource, hres, exOk]
  · simp [removeResource, hres]

/-- Witness for C10 at a concrete store whose entry 1 is invoiced: the
resource mutations still succeed. -/
theorem c10_resources_ignore_lock_witness :
    exOk (addResource c8store 1
      { rtype := "link", name := "spec", url := "https://example.org" }).1
      = true ∧
    exOk (removeResource c8store 1 1).1 = true :=
  ⟨(c10_resources_ignore_lock c8store 1 c8entry
      { rtype := "link", name := "spec", url := "https://example.org" } 1
      c8res (by rfl) (by rfl) (by rfl)).1,
   (c10_resources_ignore_lock c8store 1 c8entry
      { rtype := "link", name := "spec", url := "https://example.org" } 1
      c8res (by rfl) (by rfl) (by rfl)).2.2.1⟩

/-- One unbilled two-hour entry of client 1. -/
def c1entry : TimeEntry :=
  { id := 1, client_id := 1, project_id := none, date := "2025-01-01",
    start_time := none, duration := 2, title := "Work",
    description := none, internal_notes := none, billable := true,
    invoiced := false, invoice_id := none }

/-- A store with one client (rate 100) and one unbilled two-hour entry. -/
def c1store : Store :=
  { clients := [{ id := 1, hourly_rate := 100 }], projects := [],
    entries := [c1entry],
    invoices := [], items := [], resources := [],
    nextInvoiceId := 1, nextItemId := 1, nextResourceId := 1 }

/-- Both concurrent callers select the same single entry. -/
def c1req : InvoiceReq :=
  { client_id := 1, date_issued := "2025-01-02", tax_rate := 0,
    time_entry_ids := [1] }

/-- C1 (violated by the code): in the interleaving where both callers'
entry validations — which run outside `db.withTransaction` — execute
before either transaction body, BOTH `createInvoice` invocations succeed
on the same entry: two invoices are written, each with the entry's 200
in its subtotal, and the entry ends up pointing at the second invoice
while also being priced into the first.  The claim requires exactly one
success and one `Conflict`. -/
theorem c1_double_invoicing_race :
    exOk (createInvoiceRace 2025 c1store c1req c1req).1 = true ∧
    exOk (createInvoiceRace 2025 c1store c1req c1req).2.1 = true ∧
    ((createInvoiceRace 2025 c1store c1req c1req).2.2.invoices.map
      (fun v => v.subtotal)) = [200, 200] ∧
    ((createInvoiceRace 2025 c1store c1req c1req).2.2.invoices.map
      (fun v => v.invoice_number)) = ["2025-0001", "2025-0002"] ∧
    ((createInvoiceRace 2025 c1store c1req c1req).2.2.entries.map
      (fun e => e.invoice_id)) = [some 2] := by
  refine ⟨by rfl, by rfl, ?_, by rfl, by rfl⟩
  norm_num [createInvoiceRace, createInvoiceCheck, createInvoiceTxn,
    c1store, c1req, c1entry, findClient, findProject, effectiveRate,
    genInvoiceNumber, round2, maxStr, likeStarts, parseSeqPart]

/-- Rounding each of two addends to cents and rounding their sum to cents
agree up to one cent. -/
theorem round2_add_bound (a b : ℚ) :
    |round2 (a + b) - (round2 a + round2 b)| ≤ 1/100 := by
  unfold round2
  set x : ℤ := ⌊(a + b) * 100 + 1/2⌋ with hxdef
  set y : ℤ := ⌊a * 100 + 1/2⌋ with hydef
  set z : ℤ := ⌊b * 100 + 1/2⌋ with hzdef
  have hx1 : (x : ℚ) ≤ (a + b) * 100 + 1/2 := Int.floor_le _
  have hx2 : (a + b) * 100 + 1/2 < x + 1 := Int.lt_floor_add_one _
  have hy1 : (y : ℚ) ≤ a * 100 + 1/2 := Int.floor_le _
  have hy2 : a * 100 + 1/2 < y + 1 := Int.lt_floor_add_one _
  have hz1 : (z : ℚ) ≤ b * 100 + 1/2 := Int.floor_le _
  have hz2 : b * 100 + 1/2 < z + 1 := Int.lt_floor_add_one _
  have hq1 : ((x - y - z : ℤ) : ℚ) < 2 := by push_cast; linarith
  have hq2 : (-2 : ℚ) < ((x - y - z : ℤ) : ℚ) := by push_cast; linarith
  have hi1 : x - y - z < 2 := by exact_mod_cast hq1
  have hi2 : -2 < x - y - z := by exact_mod_cast hq2
  have habs : -1 ≤ x - y - z ∧ x - y - z ≤ 1 := by omega
  have h1 : ((x - y - z : ℤ) : ℚ) ≤ 1 := by exact_mod_cast habs.2
  have h2 : (-1 : ℚ) ≤ ((x - y - z : ℤ) : ℚ) := by exact_mod_cast habs.1
  have heq : (x : ℚ)/100 - ((y : ℚ)/100 + (z : ℚ)/100) =
      ((x - y - z : ℤ) : ℚ)/100 := by push_cast; ring
  rw [heq]
  rw [abs_le]
  constructor <;> [linarith; linarith]

/-- What `POST /:id/items` persists on success: the invoice record with
its subtotal replaced by the cent-rounding of (previously stored subtotal
plus the new item's exact amount) and tax and total recomputed from that
pre-rounding value. -/
theorem addLineItem_persists (s : Store) (invId : Nat) (r : LineItemReq)
    (item : InvoiceItem) (s' : Store) (inv : Invoice)
    (h : findInvoice s invId = some inv)
    (he : addLineItem s invId r = (.ok item, s')) :
    findInvoice s' invId = some { inv with
      subtotal := round2 (inv.subtotal + r.quantity * r.rate),
      tax_amount := round2 ((inv.subtotal + r.quantity * r.rate) *
        (inv.tax_rate / 100)),
      total := round2 ((inv.subtotal + r.quantity * r.rate) +
        (inv.subtotal + r.quantity * r.rate) * (inv.tax_rate / 100)) } := by
  unfold addLineItem at he
  simp only [h] at he
  by_cases hst : (inv.status != InvStatus.draft) = true
  · rw [if_pos hst] at he
    cases he
  · rw [if_neg hst] at he
    by_cases hval : (r.description == "" || r.quantity == 0 ||
        r.rate == 0) = true
    · rw [if_pos hval] at he
      cases he
    · rw [if_neg hval] at he
      rw [Prod.mk.injEq] at he
      obtain ⟨-, hs'⟩ := he
      subst hs'
      show (updateInvoices s.invoices invId _).find? _ = _
      exact findInvoice_update s invId inv _ (fun i => rfl) h

/-- What `DELETE /:id/items/:itemId` persists on success: the invoice
record with its subtotal replaced by the cent-rounding of (previously
stored subtotal minus the removed item's stored amount) and tax and total
recomputed from that pre-rounding value. -/
theorem removeLineItem_persists (s : Store) (invId itemId : Nat)
    (s' : Store) (inv : Invoice) (item : InvoiceItem)
    (h : findInvoice s invId = some inv)
    (hitem : s.items.find? (fun it => it.id == itemId &&
      it.invoice_id == invId) = some item)
    (he : removeLineItem s invId itemId = (.ok (), s')) :
    findInvoice s' invId = some { inv with
      subtotal := round2 (inv.subtotal - item.amount),
      tax_amount := round2 ((inv.subtotal - item.amount) *
        (inv.tax_rate / 100)),
      total := round2 ((inv.subtotal - item.amount) +
        (inv.subtotal - item.amount) * (inv.tax_rate / 100)) } := by
  unfold removeLineItem at he
  simp only [h] at he
  by_cases hst : (inv.status != InvStatus.draft) = true
  · rw [if_pos hst] at he
    cases he
  · rw [if_neg hst] at he
    simp only [hitem] at he
    rw [Prod.mk.injEq] at he
    obtain ⟨-, hs'⟩ := he
    subst hs'
    show (updateInvoices s.invoices invId _).find? _ = _
    exact findInvoice_update s invId inv _ (fun i => rfl) h

/-- What the creation transaction persists: every stored monetary field of
the new invoice is the cent-rounding of the corresponding exact value, the
exact tax is subtotal times rate over one hundred, and the exact total is
their sum. -/
theorem createInvoice_persists (year : Nat) (s : Store) (r : InvoiceReq)
    (inv : Invoice) (s' : Store)
    (he : createInvoice year s r = (.ok inv, s')) :
    ∃ sub : ℚ,
      inv.subtotal = round2 sub ∧
      inv.tax_amount = round2 (sub * (r.tax_rate / 100)) ∧
      inv.total = round2 (sub + sub * (r.tax_rate / 100)) := by
  unfold createInvoice at he
  cases hchk : createInvoiceCheck s r with
  | some e =>
    simp only [hchk] at he
    simp at he
  | none =>
    simp only [hchk] at he
    rw [Prod.mk.injEq] at he
    obtain ⟨hinv, -⟩ := he
    have hinv' : inv = (createInvoiceTxn year s r).2 :=
      (Except.ok.inj hinv).symm
    subst hinv'
    dsimp only [createInvoiceTxn]
    exact ⟨_, rfl, rfl, rfl⟩

/-- C2 (amended): the values each mutation computes satisfy
`total = subtotal + tax_amount` and `tax_amount = subtotal * tax_rate/100`
exactly, BEFORE storage; each stored field is the independent cent-rounding
of its computed value (the DECIMAL(10,2) columns), so the stored fields
satisfy the claimed identities only up to one cent:
`|total - (subtotal + tax_amount)| ≤ 1/100` — and the code itself never
applies the claimed `round` to `tax_amount` (the rounding is the storage
layer's). -/
theorem c2_totals_invariant_amended :
    (∀ (year : Nat) (s : Store) (r : InvoiceReq) (inv : Invoice) (s' : Store),
      createInvoice year s r = (.ok inv, s') →
      ∃ sub : ℚ, inv.subtotal = round2 sub ∧
        inv.tax_amount = round2 (sub * (r.tax_rate / 100)) ∧
        inv.total = round2 (sub + sub * (r.tax_rate / 100)) ∧
        |inv.total - (inv.subtotal + inv.tax_amount)| ≤ 1/100) ∧
    (∀ (s : Store) (invId : Nat) (r : LineItemReq) (item : InvoiceItem)
      (s' : Store) (inv : Invoice),
      findInvoice s invId = some inv →
      addLineItem s invId r = (.ok item, s') →
      ∀ inv', findInvoice s' invId = some inv' →
        inv'.subtotal = round2 (inv.subtotal + r.quantity * r.rate) ∧
        inv'.tax_amount = round2 ((inv.subtotal + r.quantity * r.rate) *
          (inv.tax_rate / 100)) ∧
        inv'.total = round2 ((inv.subtotal + r.quantity * r.rate) +
          (inv.subtotal + r.quantity * r.rate) * (inv.tax_rate / 100)) ∧
        |inv'.total - (inv'.subtotal + inv'.tax_amount)| ≤ 1/100) ∧
    (∀ (s : Store) (invId itemId : Nat) (s' : Store) (inv : Invoice)
      (item : InvoiceItem),
      findInvoice s invId = some inv →
      s.items.find? (fun it => it.id == itemId &&
        it.invoice_id == invId) = some item →
      removeLineItem s invId itemId = (.ok (), s') →
      ∀ inv', findInvoice s' invId = some inv' →
        inv'.subtotal = round2 (inv.subtotal - item.amount) ∧
        inv'.tax_amount = round2 ((inv.subtotal - item.amount) *
          (inv.tax_rate / 100)) ∧
        inv'.total = round2 ((inv.subtotal - item.amount) +
          (inv.subtotal - item.amount) * (inv.tax_rate / 100)) ∧
        |inv'.total - (inv'.subtotal + inv'.tax_amount)| ≤ 1/100) := by
  refine ⟨?_, ?_, ?_⟩
  · intro year s r inv s' he
    obtain ⟨sub, h1, h2, h3⟩ := createInvoice_persists year s r inv s' he
    refine ⟨sub, h1, h2, h3, ?_⟩
    rw [h1, h2, h3]
    exact round2_add_bound sub (sub * (r.tax_rate / 100))
  · intro s invId r item s' inv h he inv' h'
    have hpers := addLineItem_persists s invId r item s' inv h he
    rw [hpers] at h'
    have hinv' := Option.some.inj h'
    subst hinv'
    refine ⟨rfl, rfl, rfl, ?_⟩
    exact round2_add_bound (inv.subtotal + r.quantity * r.rate)
      ((inv.subtotal + r.quantity * r.rate) * (inv.tax_rate / 100))
  · intro s invId itemId s' inv item h hitem he inv' h'
    have hpers := removeLineItem_persists s invId itemId s' inv item h hitem he
    rw [hpers] at h'
    have hinv' := Option.some.inj h'
    subst hinv'
    refine ⟨rfl, rfl, rfl, ?_⟩
    exact round2_add_bound (inv.subtotal - item.amount)
      ((inv.subtotal - item.amount) * (inv.tax_rate / 100))

/-- An empty store with one client, base of the C2/C5 counterexamples. -/
def c2store : Store :=
  { clients := [{ id := 1, hourly_rate := 0 }], projects := [], entries := [],
    invoices := [], items := [], resources := [],
    nextInvoiceId := 1, nextItemId := 1, nextResourceId := 1 }

/-- One manual item of 0.4 × 2.51 = 1.004. -/
def c2item : ItemInput :=
  { description := "consulting", quantity := 2/5, rate := 251/100 }

/-- An invoice body carrying `c2item` at tax rate 0.4 percent. -/
def c2req : InvoiceReq :=
  { client_id := 1, date_issued := "2025-01-02", tax_rate := 2/5,
    items := [c2item] }

/-- The invoice the creation transaction persists for `c2req`. -/
def c2inv : Invoice := (createInvoiceTxn 2025 c2store c2req).2

/-- C2 is violated by the code: creating an invoice over a manual item of
1.004 at tax rate 0.4 stores subtotal 1.00, tax_amount 0.00 and total 1.01
(each value cent-rounded independently by its DECIMAL(10,2) column), so
the stored `total` differs from stored `subtotal + tax_amount`. -/
theorem c2_totals_counterexample :
    (createInvoice 2025 c2store c2req).1 = .ok c2inv ∧
    c2inv.subtotal = 1 ∧
    c2inv.tax_amount = 0 ∧
    c2inv.total = 101/100 ∧
    ((c2inv.total == c2inv.subtotal + c2inv.tax_amount) = false) := by
  have h1 : c2inv.subtotal = 1 := by
    show (createInvoiceTxn 2025 c2store c2req).2.subtotal = 1
    dsimp only [createInvoiceTxn, c2store, c2req, c2item]
    norm_num [round2]
  have h2 : c2inv.tax_amount = 0 := by
    show (createInvoiceTxn 2025 c2store c2req).2.tax_amount = 0
    dsimp only [createInvoiceTxn, c2store, c2req, c2item]
    norm_num [round2]
  have h3 : c2inv.total = 101/100 := by
    show (createInvoiceTxn 2025 c2store c2req).2.total = 101/100
    dsimp only [createInvoiceTxn, c2store, c2req, c2item]
    norm_num [round2]
  refine ⟨by rfl, h1, h2, h3, ?_⟩
  rw [h1, h2, h3]
  rw [beq_eq_false_iff_ne]
  norm_num

/-- The spec's own aggregation scenario: client rate 100, three unbilled
entries of 2.0, 1.5 and 0.5 hours, tax rate 10. -/
def c2wstore : Store :=
  { clients := [{ id := 1, hourly_rate := 100 }], projects := [],
    entries := [
      { c1entry with id := 1, duration := 2 },
      { c1entry with id := 2, duration := 3/2 },
      { c1entry with id := 3, duration := 1/2 }],
    invoices := [], items := [], resources := [],
    nextInvoiceId := 1, nextItemId := 1, nextResourceId := 1 }

def c2wreq : InvoiceReq :=
  { client_id := 1, date_issued := "2025-01-10", tax_rate := 10,
    time_entry_ids := [1, 2, 3] }

def c2winv : Invoice := (createInvoiceTxn 2025 c2wstore c2wreq).2

def c2wstoreAfter : Store := (createInvoiceTxn 2025 c2wstore c2wreq).1

/-- Witness for the amended C2 at the spec's scenario store. -/
theorem c2_totals_invariant_witness :
    |c2winv.total - (c2winv.subtotal + c2winv.tax_amount)| ≤ 1/100 := by
  obtain ⟨sub, -, -, -, h4⟩ := c2_totals_invariant_amended.1 2025 c2wstore
    c2wreq c2winv c2wstoreAfter (by rfl)
  exact h4

/-- C5 (amended): `addLineItem` and `removeLineItem` derive the new
subtotal incrementally from the PREVIOUSLY STORED (cent-rounded) subtotal
plus/minus the item amount — they do not recompute it from the invoice's
current entries and items — and recompute only tax and total from that
incremental value. -/
theorem c5_incremental_not_from_scratch :
    (∀ (s : Store) (invId : Nat) (r : LineItemReq) (item : InvoiceItem)
      (s' : Store) (inv : Invoice),
      findInvoice s invId = some inv →
      addLineItem s invId r = (.ok item, s') →
      findInvoice s' invId = some { inv with
        subtotal := round2 (inv.subtotal + r.quantity * r.rate),
        tax_amount := round2 ((inv.subtotal + r.quantity * r.rate) *
          (inv.tax_rate / 100)),
        total := round2 ((inv.subtotal + r.quantity * r.rate) +
          (inv.subtotal + r.quantity * r.rate) * (inv.tax_rate / 100)) }) ∧
    (∀ (s : Store) (invId itemId : Nat) (s' : Store) (inv : Invoice)
      (item : InvoiceItem),
      findInvoice s invId = some inv →
      s.items.find? (fun it => it.id == itemId &&
        it.invoice_id == invId) = some item →
      removeLineItem s invId itemId = (.ok (), s') →
      findInvoice s' invId = some { inv with
        subtotal := round2 (inv.subtotal - item.amount),
        tax_amount := round2 ((inv.subtotal - item.amount) *
          (inv.tax_rate / 100)),
        total := round2 ((inv.subtotal - item.amount) +
          (inv.subtotal - item.amount) * (inv.tax_rate / 100)) }) :=
  ⟨fun s invId r item s' inv h he =>
      addLineItem_persists s invId r item s' inv h he,
   fun s invId itemId s' inv item h hitem he =>
      removeLineItem_persists s invId itemId s' inv item h hitem he⟩

/-- Create over a manual item of 0.4 × 2.51 = 1.004 at tax rate 0 (stored
subtotal 1.00)... -/
def c5req : InvoiceReq :=
  { client_id := 1, date_issued := "2025-01-02", tax_rate := 0,
    items := [{ description := "base", quantity := 2/5, rate := 251/100 }] }

def c5store1 : Store := (createInvoiceTxn 2025 c2store c5req).1

/-- ... then add a manual item of 0.1 × 0.04 = 0.004. -/
def c5item2 : LineItemReq :=
  { description := "extra", quantity := 1/10, rate := 1/25 }

def c5store2 : Store := (addLineItem c5store1 1 c5item2).2

/-- The invoice persisted by the creation step of the C5 scenario. -/
def c5inv1 : Invoice := (createInvoiceTxn 2025 c2store c5req).2

/-- The row `addLineItem` inserts in the C5 scenario. -/
def c5item2row : InvoiceItem :=
  { id := 2, invoice_id := 1, description := "extra",
    quantity := round2 (1/10), rate := round2 (1/25),
    amount := round2 ((1/10) * (1/25)) }

/-- Evaluating the add-item step of the C5 scenario. -/
theorem c5_addLineItem_eq : addLineItem c5store1 1 c5item2 =
    (.ok c5item2row,
      { c5store1 with
        items := (c5store1.items ++ [c5item2row]),
        invoices := (updateInvoices c5store1.invoices 1 (fun i =>
          { i with
            subtotal := round2 (c5inv1.subtotal + (1/10) * (1/25)),
            tax_amount := round2 ((c5inv1.subtotal + (1/10) * (1/25)) *
              (c5inv1.tax_rate / 100)),
            total := round2 ((c5inv1.subtotal + (1/10) * (1/25)) +
              (c5inv1.subtotal + (1/10) * (1/25)) * (c5inv1.tax_rate / 100)) })),
        nextItemId := 3 }) := by
  have hcond : ¬((c5item2.description == "" || c5item2.quantity == 0 ||
      c5item2.rate == 0) = true) := by
    simp [c5item2]
  have hst : ¬((c5inv1.status != InvStatus.draft) = true) := by decide
  have hfind : findInvoice c5store1 1 = some c5inv1 := by rfl
  unfold addLineItem
  simp only [hfind]
  rw [if_neg hst]
  rw [if_neg hcond]
  rfl

/-- C5 is violated by the code: after adding the 0.004 item, the persisted
subtotal is `round2 (1.00 + 0.004) = 1.00` (incremental from the stored,
already-rounded 1.00), while recomputing from scratch from the invoice's
current items gives `1.004 + 0.004 = 1.008`, stored as `1.01`.  The
persisted value agrees with neither. -/
theorem c5_recompute_counterexample :
    exOk (addLineItem c5store1 1 c5item2).1 = true ∧
    ((findInvoice c5store2 1).map (fun v => v.subtotal)) = some 1 ∧
    specSubtotalFromScratch c5store2 1 = 126/125 ∧
    round2 (specSubtotalFromScratch c5store2 1) = 101/100 ∧
    (((1 : ℚ) == 126/125) = false) ∧
    (((1 : ℚ) == 101/100) = false) := by
  have hsub : c5inv1.subtotal = 1 := by
    show (createInvoiceTxn 2025 c2store c5req).2.subtotal = 1
    dsimp only [createInvoiceTxn, c2store, c5req]
    norm_num [round2]
  refine ⟨?_, ?_, ?_, ?_, ?_, ?_⟩
  · show exOk (addLineItem c5store1 1 c5item2).1 = true
    rw [c5_addLineItem_eq]
    rfl
  · show ((findInvoice (addLineItem c5store1 1 c5item2).2 1).map
      (fun v => v.subtotal)) = some 1
    rw [c5_addLineItem_eq]
    show some (round2 (c5inv1.subtotal + (1/10) * (1/25))) = some 1
    rw [hsub]
    norm_num [round2]
  · show specSubtotalFromScratch (addLineItem c5store1 1 c5item2).2 1 =
      126/125
    rw [c5_addLineItem_eq]
    norm_num [specSubtotalFromScratch, c5store1, createInvoiceTxn, c2store,
      c5req, c5item2row, round2, updateInvoices, List.range_succ]
  · show round2 (specSubtotalFromScratch (addLineItem c5store1 1 c5item2).2 1)
      = 101/100
    rw [c5_addLineItem_eq]
    norm_num [specSubtotalFromScratch, c5store1, createInvoiceTxn, c2store,
      c5req, c5item2row, round2, updateInvoices, List.range_succ]
  · rw [beq_eq_false_iff_ne]
    norm_num
  · rw [beq_eq_false_iff_ne]
    norm_num

/-- The line-item body of the C5 witness. -/
def c5wReq : LineItemReq :=
  { description := "extra", quantity := 10, rate := 5 }

/-- The row the C5 witness inserts. -/
def c5wItemRow : InvoiceItem :=
  { id := 1, invoice_id := 1, description := "extra",
    quantity := round2 10, rate := round2 5, amount := round2 (10 * 5) }

/-- Witness for the amended C5: adding a 10 × 5 item to the draft invoice
of the c7 store (stored subtotal 100, tax rate 0). -/
theorem c5_incremental_witness :
    findInvoice (addLineItem c7store 1 c5wReq).2 1 =
    some { c7inv with
      subtotal := round2 (c7inv.subtotal + c5wReq.quantity * c5wReq.rate),
      tax_amount := round2 ((c7inv.subtotal +
        c5wReq.quantity * c5wReq.rate) * (c7inv.tax_rate / 100)),
      total := round2 ((c7inv.subtotal + c5wReq.quantity * c5wReq.rate) +
        (c7inv.subtotal + c5wReq.quantity * c5wReq.rate) *
          (c7inv.tax_rate / 100)) } := by
  have h1 : (addLineItem c7store 1 c5wReq).1 = .ok c5wItemRow := by
    unfold addLineItem
    simp only [show findInvoice c7store 1 = some c7inv from rfl]
    rw [if_neg (show ¬((c7inv.status != InvStatus.draft) = true) by decide)]
    rw [if_neg (show ¬((c5wReq.description == "" || c5wReq.quantity == 0 ||
      c5wReq.rate == 0) = true) by simp [c5wReq])]
    rfl
  exact c5_incremental_not_from_scratch.1 c7store 1 c5wReq c5wItemRow
    (addLineItem c7store 1 c5wReq).2 c7inv rfl (Prod.ext h1 rfl)

/-- Every recipient of `broadcastToClient` is a member of the client's
subscription set with an open socket. -/
theorem broadcastToClient_mem (conns : List Conn) (reg : Registry)
    (cid : Nat) (m : Msg) (d : Nat × Msg)
    (hd : d ∈ broadcastToClient conns reg cid m) :
    d.1 ∈ assocGet reg.subs cid ∧ isOpenId conns d.1 = true ∧ d.2 = m := by
  unfold broadcastToClient at hd
  rw [List.mem_filterMap] at hd
  obtain ⟨a, ha, hval⟩ := hd
  by_cases ho : isOpenId conns a = true
  · rw [if_pos ho] at hval
    cases hval
    exact ⟨ha, ho, rfl⟩
  · rw [if_neg ho] at hval
    cases hval

/-- Conversely, every open member of the subscription set receives the
message. -/
theorem broadcastToClient_of_mem (conns : List Conn) (reg : Registry)
    (cid : Nat) (m : Msg) (c : Nat)
    (hc : c ∈ assocGet reg.subs cid) (ho : isOpenId conns c = true) :
    (c, m) ∈ broadcastToClient conns reg cid m := by
  unfold broadcastToClient
  rw [List.mem_filterMap]
  exact ⟨c, hc, by rw [if_pos ho]⟩

/-- Every recipient of `broadcastToAllUsers` sits in the member set of a
`user:`-keyed principal entry and has an open socket. -/
theorem broadcastToAllUsers_mem (conns : List Conn) (reg : Registry)
    (m : Msg) (d : Nat × Msg)
    (hd : d ∈ broadcastToAllUsers conns reg m) :
    (∃ p, p ∈ reg.principal ∧ likeStarts "user:" p.1 = true ∧ d.1 ∈ p.2) ∧
    isOpenId conns d.1 = true ∧ d.2 = m := by
  unfold broadcastToAllUsers at hd
  rw [List.mem_flatMap] at hd
  obtain ⟨p, hp, hval⟩ := hd
  rw [List.mem_filter] at hp
  rw [List.mem_filterMap] at hval
  obtain ⟨a, ha, hv⟩ := hval
  by_cases ho : isOpenId conns a = true
  · rw [if_pos ho] at hv
    cases hv
    exact ⟨⟨p, hp.1, hp.2, ha⟩, ho, rfl⟩
  · rw [if_neg ho] at hv
    cases hv

/-- C3: the payload a client-scoped subscriber receives for an entry event
carries no `internal_notes` key at all; two entries differing only in
`internal_notes` produce identical client payloads; and the payload staff
connections receive carries `internal_notes` unchanged. -/
theorem c3_internal_notes_redaction (conns : List Conn) (reg : Registry)
    (e : TimeEntry) (cid : Nat) (t : String) :
    ("internal_notes" ∉ (clientEntryData e).map Prod.fst) ∧
    (∀ v, clientEntryData e = clientEntryData { e with internal_notes := v }) ∧
    ((staffEntryData e).lookup "internal_notes" =
      some (match e.internal_notes with
        | none => JVal.null
        | some v => JVal.s v)) ∧
    (∀ d, d ∈ broadcastToClient conns reg cid ⟨t, clientEntryData e⟩ →
      "internal_notes" ∉ d.2.data.map Prod.fst) ∧
    (∀ d, d ∈ broadcastToAllUsers conns reg ⟨t, staffEntryData e⟩ →
      d.2.data.lookup "internal_notes" =
        some (match e.internal_notes with
          | none => JVal.null
          | some v => JVal.s v)) := by
  have hkeys : (clientEntryData e).map Prod.fst =
      ["id", "client_id", "project_id", "date", "start_time", "duration",
       "title", "description", "billable", "invoiced", "invoice_id"] := rfl
  refine ⟨?_, fun v => rfl, rfl, ?_, ?_⟩
  · rw [hkeys]
    decide
  · intro d hd
    have := (broadcastToClient_mem conns reg cid _ d hd).2.2
    rw [this]
    show "internal_notes" ∉ (clientEntryData e).map Prod.fst
    rw [hkeys]
    decide
  · intro d hd
    have := (broadcastToAllUsers_mem conns reg _ d hd).2.2
    rw [this]
    rfl

/-- A store and registry with one client-scoped subscriber of client 5 and
one staff connection, to instantiate C3. -/
def c3client : Conn :=
  { id := 1, userType := UserType.client, userId := 0, clientId := 5,
    isOpenConn := true }

def c3staff : Conn :=
  { id := 2, userType := UserType.user, userId := 7, clientId := 0,
    isOpenConn := true }

def c3reg : Registry := handleConnect (handleConnect Registry.empty c3client)
  c3staff

/-- An entry of client 5 carrying an internal annotation. -/
def c3entry : TimeEntry :=
  { c1entry with client_id := 5, internal_notes := some "margin is thin" }

/-- Witness for C3: in the concrete registry, the client connection
receives the redacted payload (no `internal_notes` key) while the staff
connection's payload carries the annotation unchanged. -/
theorem c3_internal_notes_redaction_witness :
    ("internal_notes" ∉ (clientEntryData c3entry).map Prod.fst) ∧
    ((staffEntryData c3entry).lookup "internal_notes" =
      some (JVal.s "margin is thin")) ∧
    ((1, (⟨"time_entry:created", clientEntryData c3entry⟩ : Msg)) ∈
      broadcastToClient [c3client, c3staff] c3reg 5
        ⟨"time_entry:created", clientEntryData c3entry⟩) :=
  ⟨(c3_internal_notes_redaction [c3client, c3staff] c3reg c3entry 5
      "time_entry:created").1,
   (c3_internal_notes_redaction [c3client, c3staff] c3reg c3entry 5
      "time_entry:created").2.2.1,
   broadcastToClient_of_mem [c3client, c3staff] c3reg 5
      ⟨"time_entry:created", clientEntryData c3entry⟩ 1 (by decide) (by rfl)⟩

/-- An invoice of client 5, used by the broadcast counterexamples. -/
def c4inv : Invoice :=
  { id := 9, client_id := 5, invoice_number := "2025-0009",
    date_issued := "2025-02-01", date_due := none, subtotal := 10,
    tax_rate := 0, tax_amount := 0, total := 10,
    status := InvStatus.draft, notes := none }

/-- C4 is violated by the code: with a single open connection subscribed to
client 5 in the registry, `events.invoiceCreated` for an invoice of client
5 delivers NOTHING — there is no second, redacted publish step towards the
owning client's subscribers (`invoiceCreated` only calls
`broadcastToAllUsers`). -/
theorem c4_invoice_created_counterexample :
    assocGet (handleConnect Registry.empty c3client).subs 5 = [1] ∧
    isOpenId [c3client] 1 = true ∧
    invoiceCreatedDeliveries [c3client]
      (handleConnect Registry.empty c3client) c4inv = [] := by
  exact ⟨by rfl, by rfl, by rfl⟩

/-- C4 (amended): the three entry events are genuine two-step publishes
(full record to open staff connections, redacted copy to the owning
client's open subscribers), but the invoice events are not:
`invoiceCreated` publishes only to `user:`-keyed connections and sends the
client's subscribers nothing, and `invoiceUpdated` publishes the full
record to `user:`-keyed connections plus — only when the invoice status is
`sent` — a narrow `invoice:sent` notice (id and number, not a redacted
copy of the record) to the owning client's subscribers. -/
theorem c4_broadcast_two_step_amended (conns : List Conn) (reg : Registry)
    (e : TimeEntry) (entryId cid : Nat) (v : Invoice) :
    (∀ c, c ∈ assocGet reg.subs cid → isOpenId conns c = true →
      (c, (⟨"time_entry:created", clientEntryData e⟩ : Msg)) ∈
        timeEntryCreatedDeliveries conns reg e cid) ∧
    (∀ c, c ∈ assocGet reg.subs cid → isOpenId conns c = true →
      (c, (⟨"time_entry:updated", clientEntryData e⟩ : Msg)) ∈
        timeEntryUpdatedDeliveries conns reg e cid) ∧
    (∀ c, c ∈ assocGet reg.subs cid → isOpenId conns c = true →
      (c, (⟨"time_entry:deleted", [("id", JVal.i entryId)]⟩ : Msg)) ∈
        timeEntryDeletedDeliveries conns reg entryId cid) ∧
    (∀ d, d ∈ invoiceCreatedDeliveries conns reg v →
      (∃ p, p ∈ reg.principal ∧ likeStarts "user:" p.1 = true ∧
        d.1 ∈ p.2) ∧ d.2 = ⟨"invoice:created", invoiceData v⟩) ∧
    (v.status ≠ InvStatus.sent →
      ∀ d, d ∈ invoiceUpdatedDeliveries conns reg v →
        ∃ p, p ∈ reg.principal ∧ likeStarts "user:" p.1 = true ∧
          d.1 ∈ p.2) ∧
    (v.status = InvStatus.sent →
      ∀ c, c ∈ assocGet reg.subs v.client_id → isOpenId conns c = true →
        (c, (⟨"invoice:sent", [("id", JVal.i v.id),
          ("invoice_number", JVal.s v.invoice_number)]⟩ : Msg)) ∈
          invoiceUpdatedDeliveries conns reg v) := by
  refine ⟨?_, ?_, ?_, ?_, ?_, ?_⟩
  · intro c hc ho
    exact List.mem_append_right _
      (broadcastToClient_of_mem conns reg cid _ c hc ho)
  · intro c hc ho
    exact List.mem_append_right _
      (broadcastToClient_of_mem conns reg cid _ c hc ho)
  · intro c hc ho
    exact List.mem_append_right _
      (broadcastToClient_of_mem conns reg cid _ c hc ho)
  · intro d hd
    have := broadcastToAllUsers_mem conns reg _ d hd
    exact ⟨this.1, this.2.2⟩
  · intro hns d hd
    unfold invoiceUpdatedDeliveries at hd
    rw [if_neg hns, List.append_nil] at hd
    exact (broadcastToAllUsers_mem conns reg _ d hd).1
  · intro hs c hc ho
    unfold invoiceUpdatedDeliveries
    rw [if_pos hs]
    exact List.mem_append_right _
      (broadcastToClient_of_mem conns reg v.client_id _ c hc ho)

/-- Witness for the amended C4: in the two-connection registry, the
subscriber of client 5 receives the redacted entry event, and when the
invoice is marked sent it receives the narrow notice. -/
theorem c4_broadcast_two_step_witness :
    ((1, (⟨"time_entry:created", clientEntryData c3entry⟩ : Msg)) ∈
      timeEntryCreatedDeliveries [c3client, c3staff] c3reg c3entry 5) ∧
    ((1, (⟨"invoice:sent", [("id", JVal.i 9),
        ("invoice_number", JVal.s "2025-0009")]⟩ : Msg)) ∈
      invoiceUpdatedDeliveries [c3client, c3staff] c3reg
        { c4inv with status := InvStatus.sent }) :=
  ⟨(c4_broadcast_two_step_amended [c3client, c3staff] c3reg c3entry 1 5
      c4inv).1 1 (by decide) (by rfl),
   (c4_broadcast_two_step_amended [c3client, c3staff] c3reg c3entry 1 5
      { c4inv with status := InvStatus.sent }).2.2.2.2.2 (by rfl) 1
      (by decide) (by rfl)⟩

/-- The staff connection of the C9 counterexample. -/
def c9staff : Conn :=
  { id := 1, userType := UserType.user, userId := 7, clientId := 0,
    isOpenConn := true }

/-- Connect the staff socket and let it explicitly subscribe to client 5
(the `subscribe:client` message). -/
def c9reg : Registry :=
  handleSubscribeClient (handleConnect Registry.empty c9staff) c9staff 5

/-- C9 is violated by the code: after the staff connection disconnects, the
close handler removes it from its principal key but — because the
subscription cleanup is guarded by `userType === 'client'` — leaves it in
the client-5 subscription set it had joined via `subscribe:client`. -/
theorem c9_staff_subscription_lingers :
    assocGet c9reg.subs 5 = [1] ∧
    (handleClose c9reg c9staff).principal = [] ∧
    assocGet (handleClose c9reg c9staff).subs 5 = [1] := by
  exact ⟨by rfl, by rfl, by rfl⟩

/-- Removing a member from the set at a key really removes it. -/
theorem assocGet_remove_self {κ : Type} [BEq κ] [LawfulBEq κ]
    (m : List (κ × List Nat)) (k : κ) (x : Nat) :
    x ∉ assocGet (assocRemove m k x) k := by
  induction m with
  | nil =>
    intro h
    simp [assocRemove, assocGet] at h
  | cons p m ih =>
    by_cases hpk : (p.1 == k) = true
    · show x ∉ assocGet (List.filterMap _ (p :: m)) k
      rw [List.filterMap_cons]
      simp only [hpk, if_true]
      by_cases hre : (p.2.filter (fun y => y != x)).isEmpty = true
      · rw [if_pos hre]
        exact ih
      · rw [if_neg hre]
        show x ∉ assocGet ((p.1, p.2.filter (fun y => y != x)) ::
          List.filterMap _ m) k
        unfold assocGet
        rw [List.find?_cons_of_pos _ (by simpa using hpk)]
        intro hx
        have := List.mem_filter.mp hx
        simp at this
    · show x ∉ assocGet (List.filterMap _ (p :: m)) k
      rw [List.filterMap_cons]
      simp only [hpk, if_false]
      show x ∉ assocGet ((p.1, p.2) :: List.filterMap _ m) k
      unfold assocGet
      rw [List.find?_cons_of_neg _ (by simpa using hpk)]
      exact ih

/-- C9 (amended): disconnecting removes the connection from the set under
its principal key, and a client-type connection also from its own client's
subscription set — but a staff connection stays in subscription sets it
joined explicitly.  Nevertheless no event is ever delivered to a closed
connection: every delivery of every event goes to a connection whose
socket is open. -/
theorem c9_disconnect_cleanup_amended (reg : Registry) (c : Conn) :
    (c.id ∉ assocGet (handleClose reg c).principal (connKey c)) ∧
    (c.userType = UserType.client →
      c.id ∉ assocGet (handleClose reg c).subs c.clientId) ∧
    (∀ (conns : List Conn) (x : Nat), isOpenId conns x = false →
      (∀ e cid d, d ∈ timeEntryCreatedDeliveries conns reg e cid →
        d.1 ≠ x) ∧
      (∀ e cid d, d ∈ timeEntryUpdatedDeliveries conns reg e cid →
        d.1 ≠ x) ∧
      (∀ eid cid d, d ∈ timeEntryDeletedDeliveries conns reg eid cid →
        d.1 ≠ x) ∧
      (∀ v d, d ∈ invoiceCreatedDeliveries conns reg v → d.1 ≠ x) ∧
      (∀ v d, d ∈ invoiceUpdatedDeliveries conns reg v → d.1 ≠ x)) := by
  refine ⟨?_, ?_, ?_⟩
  · unfold handleClose
    cases hc : c.userType
    · exact assocGet_remove_self _ _ _
    · exact assocGet_remove_self _ _ _
  · intro hcl
    unfold handleClose
    rw [hcl]
    exact assocGet_remove_self _ _ _
  · intro conns x hx
    have hne : ∀ d : Nat × Msg, isOpenId conns d.1 = true → d.1 ≠ x := by
      intro d hd heq
      rw [heq, hx] at hd
      cases hd
    refine ⟨?_, ?_, ?_, ?_, ?_⟩
    · intro e cid d hd
      rcases List.mem_append.mp hd with h | h
      · exact hne d (broadcastToAllUsers_mem conns reg _ d h).2.1
      · exact hne d (broadcastToClient_mem conns reg cid _ d h).2.1
    · intro e cid d hd
      rcases List.mem_append.mp hd with h | h
      · exact hne d (broadcastToAllUsers_mem conns reg _ d h).2.1
      · exact hne d (broadcastToClient_mem conns reg cid _ d h).2.1
    · intro eid cid d hd
      rcases List.mem_append.mp hd with h | h
      · exact hne d (broadcastToAllUsers_mem conns reg _ d h).2.1
      · exact hne d (broadcastToClient_mem conns reg cid _ d h).2.1
    · intro v d hd
      exact hne d (broadcastToAllUsers_mem conns reg _ d hd).2.1
    · intro v d hd
      rcases List.mem_append.mp hd with h | h
      · exact hne d (broadcastToAllUsers_mem conns reg _ d h).2.1
      · by_cases hs : v.status = InvStatus.sent
        · rw [if_pos hs] at h
          exact hne d
            (broadcastToClient_mem conns reg v.client_id _ d h).2.1
        · rw [if_neg hs] at h
          cases h

/-- A closed client connection of client 5 alongside the open c3 pair. -/
def c9closed : Conn :=
  { id := 3, userType := UserType.client, userId := 0, clientId := 5,
    isOpenConn := false }

/-- Witness for the amended C9: a client-type disconnect is fully cleaned
up, and the closed connection receives no entry event even while still
listed in the registry. -/
theorem c9_disconnect_cleanup_witness :
    (c9closed.id ∉ assocGet (handleClose c3reg c9closed).principal
      (connKey c9closed)) ∧
    (∀ d, d ∈ timeEntryCreatedDeliveries [c3client, c3staff, c9closed]
      c3reg c3entry 5 → d.1 ≠ 3) :=
  ⟨(c9_disconnect_cleanup_amended c3reg c9closed).1,
   fun d hd => ((c9_disconnect_cleanup_amended c3reg c9closed).2.2
      [c3client, c3staff, c9closed] 3 (by rfl)).1 c3entry 5 d hd⟩

/-! Invoice-number sequence (C6).  The store appends each new invoice, so
after `k` successful creations in one year the stored numbers are exactly
`numbersAfter year k`; the closed form below drives both the amended claim
and the counterexample at the 10000th invoice. -/

/-- Numbers present after `k` successful creations within one year,
mirroring `invoices := s.invoices ++ [inv]`. -/
def numbersAfter (year : Nat) : Nat → List String
  | 0 => []
  | n + 1 => numbersAfter year n ++
      [genInvoiceNumber year (numbersAfter year n)]

/-- The number the generator is expected to produce for sequence value
`k`. -/
def mkNumber (year k : Nat) : String :=
  jsNatToString year ++ "-" ++ jsPad4 k

/-- The four decimal digit characters of a number below 10000. -/
def pad4chars (k : Nat) : List Char :=
  [Nat.digitChar (k / 1000 % 10), Nat.digitChar (k / 100 % 10),
   Nat.digitChar (k / 10 % 10), Nat.digitChar (k % 10)]

theorem digitChar_toNat : ∀ d, d < 10 → (Nat.digitChar d).toNat = 48 + d :=
  by decide

theorem digitChar_isDigit : ∀ d, d < 10 → (Nat.digitChar d).isDigit = true :=
  by decide

theorem digitChar_ne_dash : ∀ d, d < 10 → ¬(Nat.digitChar d = '-') :=
  by decide

/-- `digitsRev` of a one-digit number. -/
theorem digitsRev_lt10 (k : Nat) (h1 : 1 ≤ k) (h2 : k < 10) :
    digitsRev k = [k] := by
  rw [digitsRev_succ k h1]
  rw [show k / 10 = 0 from by omega, show k % 10 = k from by omega]
  rfl

theorem digitsRev_lt100 (k : Nat) (h1 : 10 ≤ k) (h2 : k < 100) :
    digitsRev k = [k % 10, k / 10] := by
  rw [digitsRev_succ k (by omega)]
  rw [digitsRev_lt10 (k / 10) (by omega) (by omega)]

theorem digitsRev_lt1000 (k : Nat) (h1 : 100 ≤ k) (h2 : k < 1000) :
    digitsRev k = [k % 10, k / 10 % 10, k / 100] := by
  rw [digitsRev_succ k (by omega)]
  rw [digitsRev_lt100 (k / 10) (by omega) (by omega)]
  rw [show k / 10 % 10 = k / 10 % 10 from rfl, show k / 10 / 10 = k / 100
    from by omega]

theorem digitsRev_lt10000 (k : Nat) (h1 : 1000 ≤ k) (h2 : k < 10000) :
    digitsRev k = [k % 10, k / 10 % 10, k / 100 % 10, k / 1000] := by
  rw [digitsRev_succ k (by omega)]
  rw [digitsRev_lt1000 (k / 10) (by omega) (by omega)]
  rw [show k / 10 / 10 = k / 100 from by omega,
    show k / 10 / 100 = k / 1000 from by omega]

/-- For a four-digit year, `toString` yields exactly its digit
characters. -/
theorem jsNatToString_year (y : Nat) (h1 : 1000 ≤ y) (h2 : y ≤ 9999) :
    (jsNatToString y).data = pad4chars y := by
  unfold jsNatToString
  rw [if_neg (by omega)]
  rw [digitsRev_lt10000 y h1 (by omega)]
  show [Nat.digitChar (y / 1000), Nat.digitChar (y / 100 % 10),
    Nat.digitChar (y / 10 % 10), Nat.digitChar (y % 10)] = _
  rw [show y / 1000 = y / 1000 % 10 from by omega]
  rfl

/-- The zero-padded sequence part: exactly four digit characters for
values up to 9999. -/
theorem jsPad4_data (k : Nat) (h1 : 1 ≤ k) (h2 : k ≤ 9999) :
    (jsPad4 k).data = pad4chars k := by
  unfold jsPad4 jsNatToString
  rw [if_neg (by omega)]
  rcases Nat.lt_or_ge k 10 with h | h
  · rw [digitsRev_lt10 k h1 h]
    unfold padStart4
    rw [if_neg (by show ¬(String.mk _).length ≥ 4; simp [String.length])]
    show ('0' :: '0' :: '0' :: [Nat.digitChar k]) = _
    unfold pad4chars
    rw [show k / 1000 % 10 = 0 from by omega,
      show k / 100 % 10 = 0 from by omega,
      show k / 10 % 10 = 0 from by omega,
      show k % 10 = k from by omega]
    rfl
  rcases Nat.lt_or_ge k 100 with h' | h'
  · rw [digitsRev_lt100 k h h']
    unfold padStart4
    rw [if_neg (by show ¬(String.mk _).length ≥ 4; simp [String.length])]
    show ('0' :: '0' :: [Nat.digitChar (k / 10), Nat.digitChar (k % 10)]) = _
    unfold pad4chars
    rw [show k / 1000 % 10 = 0 from by omega,
      show k / 100 % 10 = 0 from by omega,
      show k / 10 % 10 = k / 10 from by omega]
    rfl
  rcases Nat.lt_or_ge k 1000 with h'' | h''
  · rw [digitsRev_lt1000 k h' h'']
    unfold padStart4
    rw [if_neg (by show ¬(String.mk _).length ≥ 4; simp [String.length])]
    show ('0' :: [Nat.digitChar (k / 100), Nat.digitChar (k / 10 % 10),
      Nat.digitChar (k % 10)]) = _
    unfold pad4chars
    rw [show k / 1000 % 10 = 0 from by omega,
      show k / 100 % 10 = k / 100 from by omega]
    rfl
  · rw [digitsRev_lt10000 k h'' (by omega)]
    unfold padStart4
    rw [if_pos (by show (String.mk _).length ≥ 4; simp [String.length])]
    show [Nat.digitChar (k / 1000), Nat.digitChar (k / 100 % 10),
      Nat.digitChar (k / 10 % 10), Nat.digitChar (k % 10)] = _
    unfold pad4chars
    rw [show k / 1000 % 10 = k / 1000 from by omega]

/-- Lexicographic comparison of equal four-digit blocks mirrors the
numeric order. -/
theorem pad4chars_ltb (a b : Nat) (ha : a ≤ 9999) (hb : b ≤ 9999) :
    listLtb (pad4chars a) (pad4chars b) = decide (a < b) := by
  unfold pad4chars
  simp only [listLtb]
  rw [digitChar_toNat (a / 1000 % 10) (by omega),
    digitChar_toNat (b / 1000 % 10) (by omega),
    digitChar_toNat (a / 100 % 10) (by omega),
    digitChar_toNat (b / 100 % 10) (by omega),
    digitChar_toNat (a / 10 % 10) (by omega),
    digitChar_toNat (b / 10 % 10) (by omega),
    digitChar_toNat (a % 10) (by omega),
    digitChar_toNat (b % 10) (by omega)]
  split_ifs with h1 h2 h3 h4 h5 h6 h7 h8 <;>
    first
    | (refine (decide_eq_true ?_).symm; omega)
    | (refine (decide_eq_false ?_).symm; omega)

/-- A shared prefix does not affect the lexicographic comparison. -/
theorem listLtb_append_left (p x y : List Char) :
    listLtb (p ++ x) (p ++ y) = listLtb x y := by
  induction p with
  | nil => rfl
  | cons c cs ih =>
    show (if c.toNat < c.toNat then true else
      if c.toNat < c.toNat then false else listLtb (cs ++ x) (cs ++ y)) = _
    rw [if_neg (by omega), if_neg (by omega), ih]

/-- A character list is a prefix of itself followed by anything. -/
theorem isPrefixOf_append_self (l r : List Char) :
    l.isPrefixOf (l ++ r) = true := by
  induction l with
  | nil => cases r <;> rfl
  | cons c cs ih =>
    show (c == c && cs.isPrefixOf (cs ++ r)) = true
    rw [ih]
    simp

/-- Dropping through the dash of `digits ++ '-' :: rest` lands on
`rest`. -/
theorem afterDash_append (l r : List Char) (h : ∀ c ∈ l, ¬(c = '-')) :
    afterDash (l ++ '-' :: r) = r := by
  induction l with
  | nil =>
    show (if '-' = '-' then r else _) = r
    rw [if_pos rfl]
  | cons c cs ih =>
    show (if c = '-' then _ else afterDash (cs ++ '-' :: r)) = r
    rw [if_neg (h c (List.mem_cons_self c cs))]
    exact ih (fun x hx => h x (List.mem_cons_of_mem c hx))

/-- A dash-free list is taken whole. -/
theorem upToDash_no_dash (l : List Char) (h : ∀ c ∈ l, ¬(c = '-')) :
    upToDash l = l := by
  induction l with
  | nil => rfl
  | cons c cs ih =>
    show (if c = '-' then [] else c :: upToDash cs) = c :: cs
    rw [if_neg (h c (List.mem_cons_self c cs))]
    rw [ih (fun x hx => h x (List.mem_cons_of_mem c hx))]

/-- `parseInt` really inverts the four-digit rendering. -/
theorem parseDigits_pad4chars (k : Nat) (hk : k ≤ 9999) :
    parseDigits (pad4chars k) = k := by
  unfold parseDigits pad4chars
  show ((((0 * 10 + ((Nat.digitChar (k / 1000 % 10)).toNat - 48)) * 10 +
      ((Nat.digitChar (k / 100 % 10)).toNat - 48)) * 10 +
      ((Nat.digitChar (k / 10 % 10)).toNat - 48)) * 10 +
      ((Nat.digitChar (k % 10)).toNat - 48)) = k
  rw [digitChar_toNat _ (by omega), digitChar_toNat _ (by omega),
    digitChar_toNat _ (by omega), digitChar_toNat _ (by omega)]
  omega

/-- No digit character of a four-digit block is a dash. -/
theorem pad4chars_no_dash (k : Nat) : ∀ c ∈ pad4chars k, ¬(c = '-') := by
  intro c hc
  unfold pad4chars at hc
  simp only [List.mem_cons, List.not_mem_nil, or_false] at hc
  rcases hc with rfl | rfl | rfl | rfl
  all_goals exact digitChar_ne_dash _ (by omega)

theorem strData_append (s t : String) : (s ++ t).data = s.data ++ t.data := by
  cases s
  cases t
  rfl

theorem strExt {s t : String} (h : s.data = t.data) : s = t := by
  cases s
  cases t
  cases h
  rfl

/-- The character sequence of a generated number: year digits, dash,
sequence digits. -/
theorem mkNumber_data (year k : Nat) (hy1 : 1000 ≤ year) (hy2 : year ≤ 9999)
    (hk1 : 1 ≤ k) (hk2 : k ≤ 9999) :
    (mkNumber year k).data = (pad4chars year ++ ['-']) ++ pad4chars k := by
  unfold mkNumber
  rw [strData_append, strData_append]
  rw [jsNatToString_year year hy1 hy2, jsPad4_data k hk1 hk2]

/-- Every generated number of the year passes the `LIKE 'year-%'`
filter. -/
theorem likeStarts_mkNumber (year k : Nat) (hy1 : 1000 ≤ year)
    (hy2 : year ≤ 9999) (hk1 : 1 ≤ k) (hk2 : k ≤ 9999) :
    likeStarts (jsNatToString year ++ "-") (mkNumber year k) = true := by
  unfold likeStarts
  rw [mkNumber_data year k hy1 hy2 hk1 hk2, strData_append,
    jsNatToString_year year hy1 hy2]
  show (pad4chars year ++ ['-']).isPrefixOf
    ((pad4chars year ++ ['-']) ++ pad4chars k) = true
  exact isPrefixOf_append_self _ _

/-- The SQL order on two generated numbers of one year is the numeric
order of their sequence parts. -/
theorem listLtb_mkNumber (year a b : Nat) (hy1 : 1000 ≤ year)
    (hy2 : year ≤ 9999) (ha1 : 1 ≤ a) (ha2 : a ≤ 9999) (hb1 : 1 ≤ b)
    (hb2 : b ≤ 9999) :
    listLtb (mkNumber year a).data (mkNumber year b).data =
      decide (a < b) := by
  rw [mkNumber_data year a hy1 hy2 ha1 ha2,
    mkNumber_data year b hy1 hy2 hb1 hb2]
  rw [listLtb_append_left]
  exact pad4chars_ltb a b ha2 hb2

/-- `split('-')[1]` with `parseInt` recovers the sequence part. -/
theorem parseSeqPart_mkNumber (year k : Nat) (hy1 : 1000 ≤ year)
    (hy2 : year ≤ 9999) (hk1 : 1 ≤ k) (hk2 : k ≤ 9999) :
    parseSeqPart (mkNumber year k) = k := by
  unfold parseSeqPart
  rw [mkNumber_data year k hy1 hy2 hk1 hk2]
  rw [List.append_assoc]
  rw [show (['-'] ++ pad4chars k) = '-' :: pad4chars k from rfl]
  rw [afterDash_append _ _ (pad4chars_no_dash year)]
  rw [upToDash_no_dash _ (pad4chars_no_dash k)]
  exact parseDigits_pad4chars k hk2

/-- One step of the SQL maximum under appending. -/
theorem maxStr_append_last (l : List String) (y : String) :
    maxStr (l ++ [y]) =
      (match maxStr l with
       | none => some y
       | some m => if listLtb m.data y.data then some y else some m) := by
  unfold maxStr
  rw [List.foldl_append]
  rfl

/-- The SQL maximum of the first `k` generated numbers of a year is the
`k`-th one. -/
theorem maxStr_range (year : Nat) (hy1 : 1000 ≤ year) (hy2 : year ≤ 9999) :
    ∀ k, 1 ≤ k → k ≤ 9999 →
      maxStr ((List.range k).map (fun i => mkNumber year (i + 1))) =
        some (mkNumber year k) := by
  intro k
  induction k with
  | zero => omega
  | succ n ih =>
    intro _ hk
    rcases Nat.eq_zero_or_pos n with hn | hn
    · subst hn
      rfl
    · rw [List.range_succ, List.map_append]
      rw [show List.map (fun i => mkNumber year (i + 1)) [n] =
        [mkNumber year (n + 1)] from rfl]
      rw [maxStr_append_last]
      rw [ih (by omega) (by omega)]
      show (if listLtb (mkNumber year n).data (mkNumber year (n + 1)).data
        then some (mkNumber year (n + 1)) else some (mkNumber year n)) = _
      rw [listLtb_mkNumber year n (n + 1) hy1 hy2 (by omega) (by omega)
        (by omega) (by omega)]
      rw [if_pos (by simp)]

/-- The closed form of the number sequence: after `k ≤ 9999` successful
creations the stored numbers are `year-0001 … year-(k zero-padded)`, and
the generator produces the `(k+1)`-th number — still zero-padded only as
long as it fits in four digits. -/
theorem numbersAfter_closed (year : Nat) (hy1 : 1000 ≤ year)
    (hy2 : year ≤ 9999) :
    ∀ k, k ≤ 9999 →
      numbersAfter year k =
        (List.range k).map (fun i => mkNumber year (i + 1)) ∧
      genInvoiceNumber year (numbersAfter year k) = mkNumber year (k + 1) := by
  intro k
  induction k with
  | zero =>
    intro _
    refine ⟨rfl, ?_⟩
    show genInvoiceNumber year [] = _
    unfold genInvoiceNumber
    show jsNatToString year ++ "-" ++ "0001" = mkNumber year 1
    unfold mkNumber
    rw [show jsPad4 1 = "0001" from rfl]
  | succ n ih =>
    intro hk
    obtain ⟨hA, hB⟩ := ih (by omega)
    have hA1 : numbersAfter year (n + 1) =
        (List.range (n + 1)).map (fun i => mkNumber year (i + 1)) := by
      show numbersAfter year n ++ [genInvoiceNumber year (numbersAfter year n)]
        = _
      rw [hB, hA, List.range_succ, List.map_append]
      rfl
    refine ⟨hA1, ?_⟩
    unfold genInvoiceNumber
    rw [hA1]
    rw [List.filter_eq_self.mpr (by
      intro s hs
      rw [List.mem_map] at hs
      obtain ⟨i, hi, rfl⟩ := hs
      rw [List.mem_range] at hi
      exact likeStarts_mkNumber year (i + 1) hy1 hy2 (by omega) (by omega))]
    rw [maxStr_range year hy1 hy2 (n + 1) (by omega) (by omega)]
    show jsNatToString year ++ "-" ++
      jsPad4 (parseSeqPart (mkNumber year (n + 1)) + 1) = _
    rw [parseSeqPart_mkNumber year (n + 1) hy1 hy2 (by omega) (by omega)]
    rfl

/-- Take up to the dash of `digits ++ '-' :: rest`. -/
theorem upToDash_append (l r : List Char) (h : ∀ c ∈ l, ¬(c = '-')) :
    upToDash (l ++ '-' :: r) = l := by
  induction l with
  | nil =>
    show (if '-' = '-' then [] else _) = []
    rw [if_pos rfl]
  | cons c cs ih =>
    show (if c = '-' then [] else c :: upToDash (cs ++ '-' :: r)) = c :: cs
    rw [if_neg (h c (List.mem_cons_self c cs))]
    rw [ih (fun x hx => h x (List.mem_cons_of_mem c hx))]

/-- The year part read back from a generated number. -/
theorem parseYear_mkNumber (year k : Nat) (hy1 : 1000 ≤ year)
    (hy2 : year ≤ 9999) (hk1 : 1 ≤ k) (hk2 : k ≤ 9999) :
    parseDigits (upToDash (mkNumber year k).data) = year := by
  rw [mkNumber_data year k hy1 hy2 hk1 hk2]
  rw [List.append_assoc]
  rw [show (['-'] ++ pad4chars k) = '-' :: pad4chars k from rfl]
  rw [upToDash_append _ _ (pad4chars_no_dash year)]
  exact parseDigits_pad4chars year hy2

/-- Every generated number of the first 9999 of a year matches
`^[0-9]{4}-[0-9]{4}$`. -/
theorem mkNumber_format (year k : Nat) (hy1 : 1000 ≤ year)
    (hy2 : year ≤ 9999) (hk1 : 1 ≤ k) (hk2 : k ≤ 9999) :
    matchesFormat (mkNumber year k) = true := by
  unfold matchesFormat
  rw [mkNumber_data year k hy1 hy2 hk1 hk2]
  unfold pad4chars
  simp only [List.cons_append, List.nil_append]
  show ((Nat.digitChar (year / 1000 % 10)).isDigit &&
    (Nat.digitChar (year / 100 % 10)).isDigit &&
    (Nat.digitChar (year / 10 % 10)).isDigit &&
    (Nat.digitChar (year % 10)).isDigit && ('-' == '-') &&
    (Nat.digitChar (k / 1000 % 10)).isDigit &&
    (Nat.digitChar (k / 100 % 10)).isDigit &&
    (Nat.digitChar (k / 10 % 10)).isDigit &&
    (Nat.digitChar (k % 10)).isDigit) = true
  rw [digitChar_isDigit (year / 1000 % 10) (by omega),
    digitChar_isDigit (year / 100 % 10) (by omega),
    digitChar_isDigit (year / 10 % 10) (by omega),
    digitChar_isDigit (year % 10) (by omega),
    digitChar_isDigit (k / 1000 % 10) (by omega),
    digitChar_isDigit (k / 100 % 10) (by omega),
    digitChar_isDigit (k / 10 % 10) (by omega),
    digitChar_isDigit (k % 10) (by omega)]
  rfl

/-- The creation transaction stores exactly one new number: the one the
generator derives from the previously stored numbers (computed inside
`db.withTransaction`), appended to them. -/
theorem createInvoiceTxn_numbers (year : Nat) (s : Store) (r : InvoiceReq) :
    ((createInvoiceTxn year s r).1).invoices.map
      (fun i => i.invoice_number) =
    s.invoices.map (fun i => i.invoice_number) ++
      [genInvoiceNumber year (s.invoices.map (fun i => i.invoice_number))] := by
  dsimp only [createInvoiceTxn]
  rw [List.map_append]
  rfl

/-- C6 (amended): within one calendar year, as long as at most 9999
invoices exist, the generator run on the numbers stored after `n - 1`
creations yields `year-n` zero-padded to four digits; that number matches
`^[0-9]{4}-[0-9]{4}$`; earlier numbers of the same year are distinct from
it, numerically below it and below it in the SQL string order; numbers of
distinct (four-digit) years never collide; and a year with no stored
numbers — in particular a fresh year whose stored numbers all belong to
other years — starts at `year-0001`.  (The 10000th invoice of a year
breaks the format — see the counterexample.) -/
theorem c6_invoice_numbers_amended (year : Nat) (hy1 : 1000 ≤ year)
    (hy2 : year ≤ 9999) (n : Nat) (hn1 : 1 ≤ n) (hn2 : n ≤ 9999) :
    genInvoiceNumber year (numbersAfter year (n - 1)) = mkNumber year n ∧
    matchesFormat (mkNumber year n) = true ∧
    (∀ m, 1 ≤ m → m < n →
      mkNumber year m ≠ mkNumber year n ∧
      parseSeqPart (mkNumber year m) < parseSeqPart (mkNumber year n) ∧
      listLtb (mkNumber year m).data (mkNumber year n).data = true) ∧
    (∀ y2 n2, 1000 ≤ y2 → y2 ≤ 9999 → 1 ≤ n2 → n2 ≤ 9999 → year ≠ y2 →
      mkNumber year n ≠ mkNumber y2 n2) ∧
    genInvoiceNumber year [] = mkNumber year 1 ∧
    (∀ l, (∀ s ∈ l, likeStarts (jsNatToString year ++ "-") s = false) →
      genInvoiceNumber year l = mkNumber year 1) := by
  refine ⟨?_, mkNumber_format year n hy1 hy2 hn1 hn2, ?_, ?_, ?_, ?_⟩
  · have h := (numbersAfter_closed year hy1 hy2 (n - 1) (by omega)).2
    rw [show n - 1 + 1 = n from by omega] at h
    exact h
  · intro m hm1 hm2
    refine ⟨?_, ?_, ?_⟩
    · intro heq
      have := congrArg parseSeqPart heq
      rw [parseSeqPart_mkNumber year m hy1 hy2 hm1 (by omega),
        parseSeqPart_mkNumber year n hy1 hy2 hn1 hn2] at this
      omega
    · rw [parseSeqPart_mkNumber year m hy1 hy2 hm1 (by omega),
        parseSeqPart_mkNumber year n hy1 hy2 hn1 hn2]
      omega
    · rw [listLtb_mkNumber year m n hy1 hy2 hm1 (by omega) hn1 hn2]
      exact decide_eq_true hm2
  · intro y2 n2 hy21 hy22 hn21 hn22 hne heq
    have := congrArg (fun s => parseDigits (upToDash s.data)) heq
    rw [show (fun s => parseDigits (upToDash s.data)) (mkNumber year n) =
      parseDigits (upToDash (mkNumber year n).data) from rfl] at this
    rw [show (fun s => parseDigits (upToDash s.data)) (mkNumber y2 n2) =
      parseDigits (upToDash (mkNumber y2 n2).data) from rfl] at this
    rw [parseYear_mkNumber year n hy1 hy2 hn1 hn2,
      parseYear_mkNumber y2 n2 hy21 hy22 hn21 hn22] at this
    exact hne this
  · exact (numbersAfter_closed year hy1 hy2 0 (by omega)).2
  · intro l hl
    unfold genInvoiceNumber
    rw [show l.filter (fun s => likeStarts (jsNatToString year ++ "-") s)
        = [] from by
      rw [List.filter_eq_nil_iff]
      intro a ha
      rw [hl a ha]
      exact Bool.false_ne_true]
    show jsNatToString year ++ "-" ++ "0001" = mkNumber year 1
    unfold mkNumber
    rw [show jsPad4 1 = "0001" from rfl]

/-- Witness for the amended C6 at year 2025: after two creations the
generator produces `2025-0003`, and all the stated properties hold at
`n = 3`. -/
theorem c6_invoice_numbers_witness :
    genInvoiceNumber 2025 (numbersAfter 2025 (3 - 1)) = mkNumber 2025 3 ∧
    matchesFormat (mkNumber 2025 3) = true :=
  ⟨(c6_invoice_numbers_amended 2025 (by omega) (by omega) 3 (by omega)
      (by omega)).1,
   (c6_invoice_numbers_amended 2025 (by omega) (by omega) 3 (by omega)
      (by omega)).2.1⟩

/-- C6 is violated by the code at the 10000th invoice of a year:
`padStart(4, '0')` never truncates, so the number generated after 9999
stored numbers is `2025-10000`, which does not match
`^[0-9]{4}-[0-9]{4}$`. -/
theorem c6_format_counterexample :
    genInvoiceNumber 2025 (numbersAfter 2025 9999) = "2025-10000" ∧
    matchesFormat "2025-10000" = false := by
  constructor
  · have h := (numbersAfter_closed 2025 (by omega) (by omega) 9999
      (by omega)).2
    rw [h]
    decide
  · decide

end Slate
